import Mathlib

/-!
Verification development for the kodi-nfo-generator repository.

The Python sources under src/kodi are shallowly embedded: pure helpers
become Lean functions, the filesystem becomes an explicit association
list from path to content, HTTP traffic and page parsing outcomes are
supplied through an explicit environment record, and Python exceptions
become an explicit error type threaded through Except.
-/

namespace Kodi

/-- Python exception kinds that the embedded code can raise. -/
inductive PyErr where
  | typeError
  | attributeError
  | keyError
  | valueError
deriving DecidableEq, Repr

/-- The filesystem: an association list from file path to file content.
Earlier entries shadow later ones, so writing conses a fresh entry. -/
abbrev FS := List (String × String)

/-- os.path.exists on the modelled filesystem. -/
def pathExists (fs : FS) (p : String) : Bool :=
  (fs.lookup p).isSome

/-- Writing a file: the new entry shadows any previous one. -/
def fsWrite (fs : FS) (p c : String) : FS :=
  (p, c) :: fs

/-- Embedding of output_xml from src/kodi/xml_utils.py (lines 45-73).
The minidom document argument is already rendered to its pretty-printed
string (doc.toprettyxml happens before any branching in the source).
A logger value of none models passing logger=None; the skip branch of
the source calls logger.info unconditionally, which raises
AttributeError for None, while the write branch guards the call. -/
def output_xml (xml_str : String) (xml_path : String)
    (dry_run overwrite : Bool) (logger : Option Unit) (fs : FS) :
    Except PyErr (Bool × FS) :=
  if dry_run then
    .ok (false, fs)
  else
    if pathExists fs xml_path && !overwrite then
      match logger with
      | none => .error .attributeError
      | some _ => .ok (false, fs)
    else
      .ok (true, fsWrite fs xml_path xml_str)

/-- Embedding of output_str from src/kodi/io_utils.py (lines 214-241).
Identical control flow to output_xml, applied to raw string content. -/
def output_str (content : String) (path : String)
    (dry_run overwrite : Bool) (logger : Option Unit) (fs : FS) :
    Except PyErr (Bool × FS) :=
  if dry_run then
    .ok (false, fs)
  else
    if pathExists fs path && !overwrite then
      match logger with
      | none => .error .attributeError
      | some _ => .ok (false, fs)
    else
      .ok (true, fsWrite fs path content)

/-- Embedding of get_nfo_file from src/kodi/io_utils.py (lines 161-183):
the movie-style sidecar (dir basename + ".nfo") is checked first, then
the fixed tvshow.nfo name. -/
def get_nfo_file (fs : FS) (path base : String) : Option String :=
  let f := path ++ "/" ++ base ++ ".nfo"
  if pathExists fs f then some f
  else
    let f2 := path ++ "/tvshow.nfo"
    if pathExists fs f2 then some f2 else none

/-! ## String helpers modelling Python primitives -/

/-- Python str.strip with no argument: remove leading and trailing
whitespace from a character list. -/
def pyStrip (l : List Char) : List Char :=
  ((l.dropWhile Char.isWhitespace).reverse.dropWhile Char.isWhitespace).reverse

/-- Python str.split(sep) for a single-character separator: the list of
fields between occurrences of the separator (always at least one field). -/
def splitChar (sep : Char) : List Char → List (List Char)
  | [] => [[]]
  | c :: rest =>
    if c = sep then [] :: splitChar sep rest
    else
      match splitChar sep rest with
      | f :: fs => (c :: f) :: fs
      | [] => [[c]]

/-- Whether the second list starts with the first list. -/
def leadsWith [DecidableEq α] : List α → List α → Bool
  | [], _ => true
  | _ :: _, [] => false
  | a :: as, b :: bs => a = b && leadsWith as bs

/-- Python substring containment: needle in hay. -/
def occursIn (needle : List Char) : List Char → Bool
  | [] => leadsWith needle []
  | c :: rest => leadsWith needle (c :: rest) || occursIn needle rest

/-- Python substring containment on String values. -/
def strIn (needle hay : String) : Bool :=
  occursIn needle.data hay.data

/-- Python str.endswith on String values. -/
def strEndsWith (suffix s : String) : Bool :=
  leadsWith suffix.data.reverse s.data.reverse

/-! ## Python integers rendered to and parsed from strings -/

/-- The ASCII character of a decimal digit value. -/
def digitChar (d : Nat) : Char := Char.ofNat (48 + d)

/-- The decimal digit value of an ASCII character. -/
def charDigit (c : Char) : Nat := c.toNat - 48

/-- Little-endian decimal digits of a natural number, with fuel; the
fuel argument only bounds the recursion depth and any fuel at least the
number itself is ample. -/
def natDigitsAux : Nat → Nat → List Nat
  | 0, _ => []
  | _ + 1, 0 => []
  | fuel + 1, n + 1 => ((n + 1) % 10) :: natDigitsAux fuel ((n + 1) / 10)

/-- Little-endian decimal digits of a natural number. -/
def natDigits (n : Nat) : List Nat := natDigitsAux n n

/-- Decimal rendering of a natural number, as Python str does it. -/
def natToStr (n : Nat) : String :=
  if n = 0 then "0"
  else String.mk (((natDigits n).map digitChar).reverse)

/-- Python str applied to an int: optional minus sign, then the decimal
digits of the absolute value without leading zeros. -/
def pyStrOfInt (z : Int) : String :=
  if z < 0 then "-" ++ natToStr z.natAbs else natToStr z.natAbs

/-- Numeric value of a list of decimal digit characters. -/
def natValOfDigits (l : List Char) : Nat :=
  l.foldl (fun a c => a * 10 + charDigit c) 0

/-- Model of the Python int constructor applied to a string: surrounding
whitespace is stripped, an optional sign is read, and a nonempty run of
ASCII decimal digits must remain.  none models a ValueError. -/
def pyInt? (s : String) : Option Int :=
  let l := pyStrip s.data
  let signed : Int × List Char :=
    match l with
    | '-' :: rest => (-1, rest)
    | '+' :: rest => (1, rest)
    | l => (1, l)
  if signed.2 ≠ [] ∧ signed.2.all Char.isDigit then
    some (signed.1 * (natValOfDigits signed.2 : Int))
  else none

/-- A canonical decimal integer string: an optional minus sign followed
by decimal digits with no leading zero (except for "0" itself). -/
def isCanonIntStr (s : String) : Bool :=
  if s.data = [] then false
  else if s.data.headD ' ' = '-' then
    !s.data.tail.isEmpty && s.data.tail.all Char.isDigit &&
      !(s.data.tail.headD '0' = '0')
  else
    s.data.all Char.isDigit &&
      (decide (s.data = ['0']) || !(s.data.headD ' ' = '0'))

/-! ## A regular expression engine for the re module usage in _series.py

The capture regexes handed to re.compile in extract_season_episode use
literal characters, the class [0-9], the dot, greedy ? and * and one
capturing group.  The engine below enumerates candidate matches in the
backtracking priority order of the re module (greedy alternatives
first) and re.match corresponds to taking the head of that list. -/

/-- Abstract syntax of the regular expression subset in use. -/
inductive Re where
  | eps : Re
  | lit : Char → Re
  | digit : Re
  | dot : Re
  | seq : Re → Re → Re
  | opt : Re → Re
  | star : Re → Re
  | group : Re → Re
deriving Repr, DecidableEq

/-- Number of capturing groups of a pattern (the length of the tuple
returned by match.groups in Python). -/
def Re.numGroups : Re → Nat
  | .eps => 0
  | .lit _ => 0
  | .digit => 0
  | .dot => 0
  | .seq a b => a.numGroups + b.numGroups
  | .opt a => a.numGroups
  | .star a => a.numGroups
  | .group a => a.numGroups + 1

/-- One level of the matcher, structurally recursive over the pattern:
all ways a pattern can match some leading part of the input, in
backtracking priority order.  Each result is the remaining input
together with the group captures made on that path.  Star iterations
must consume input (as in the re engine); continuing a star hands over
to the starRec argument, which mrun ties to a lower fuel level. -/
def mrunB (starRec : Re → List Char → List (List Char × List String)) :
    Re → List Char → List (List Char × List String)
  | .eps, s => [(s, [])]
  | .lit _, [] => []
  | .lit c, x :: rest => if x = c then [(rest, [])] else []
  | .digit, [] => []
  | .digit, x :: rest => if x.isDigit then [(rest, [])] else []
  | .dot, [] => []
  | .dot, x :: rest => if x = Char.ofNat 10 then [] else [(rest, [])]
  | .seq a b, s =>
    (mrunB starRec a s).flatMap
      (fun p => (mrunB starRec b p.1).map (fun q => (q.1, p.2 ++ q.2)))
  | .opt a, s => mrunB starRec a s ++ [(s, [])]
  | .group a, s =>
    (mrunB starRec a s).map
      (fun p => (p.1, String.mk (s.take (s.length - p.1.length)) :: p.2))
  | .star a, s =>
    ((mrunB starRec a s).flatMap
      (fun p =>
        if p.1.length < s.length then
          (starRec (.star a) p.1).map (fun q => (q.1, p.2 ++ q.2))
        else [])) ++ [(s, [])]

/-- The fuelled matcher; the fuel picked by reMatchGroups is ample for
the patterns in use, since every star iteration consumes input. -/
def mrun : Nat → Re → List Char → List (List Char × List String)
  | 0, re, s => mrunB (fun _ s2 => [(s2, [])]) re s
  | fuel + 1, re, s => mrunB (mrun fuel) re s

/-- re.match on a String: the group captures of the first match in
backtracking priority order, or none when the pattern does not match. -/
def reMatchGroups (r : Re) (s : String) : Option (List String) :=
  ((mrun (4 * s.length + 16) r s.data).head?).map (fun p => p.2)

/-- The default season capture pattern of _series.py. -/
def default_season_group : Re :=
  .seq (.star .dot)
    (.seq (.lit 'S')
      (.seq (.group (.seq (.opt .digit) .digit))
        (.seq (.lit 'E') (.star .dot))))

/-- The default episode capture pattern of _series.py. -/
def default_episode_group : Re :=
  .seq (.star .dot)
    (.seq (.lit 'E')
      (.seq (.group (.seq (.opt .digit) .digit))
        (.star .dot)))

/-! ## extract_season_episode and determine_episodes (src/kodi/imdb/_series.py) -/

/-- Embedding of extract_season_episode (lines 372-396 of _series.py):
match both capture regexes against the filename, require exactly one
capturing group in each pattern, and normalize each captured number by
parsing it as an int and rendering it back.  A capture that the int
constructor rejects raises ValueError; a pattern with groups that did
not participate in the match yields None, and int(None) raises
TypeError. -/
def extract_season_episode (sg eg : Re) (path : String) :
    Except PyErr (Option (String × String)) :=
  match reMatchGroups sg path, reMatchGroups eg path with
  | none, _ => .ok none
  | some _, none => .ok none
  | some gs, some ge =>
    if sg.numGroups = 1 ∧ eg.numGroups = 1 then
      match gs.head?, ge.head? with
      | some cs, some ce =>
        match pyInt? cs, pyInt? ce with
        | some zs, some ze => .ok (some (pyStrOfInt zs, pyStrOfInt ze))
        | _, _ => .error .valueError
      | _, _ => .error .typeError
    else .ok none

/-- fnmatch glob token: star, single-character wildcard, or literal. -/
inductive GTok where
  | star : GTok
  | anyc : GTok
  | lit : Char → GTok
deriving Repr, DecidableEq

/-- Star scanning for glob matching: try the rest of the pattern at
every suffix of the input, nearest suffix first. -/
def globStarScan (matchRest : List Char → Bool) : List Char → Bool
  | [] => matchRest []
  | c :: cs => matchRest (c :: cs) || globStarScan matchRest cs

/-- fnmatch.fnmatch on one filename (case-sensitive platform). -/
def globMatch : List GTok → List Char → Bool
  | [], [] => true
  | [], _ :: _ => false
  | .star :: gs, cs => globStarScan (globMatch gs) cs
  | .anyc :: _, [] => false
  | .anyc :: gs, _ :: cs2 => globMatch gs cs2
  | .lit _ :: _, [] => false
  | .lit c :: gs, c2 :: cs2 => c = c2 && globMatch gs cs2

/-- Parse a glob pattern string into tokens. -/
def globOfString (p : String) : List GTok :=
  p.data.map (fun c => if c = '*' then .star else if c = '?' then .anyc else .lit c)

/-- Insertion into the season map, as in lines 428-431 of _series.py:
a fresh season key is appended at the end (dict insertion order), a
fresh episode key is appended to its season's list, and an episode key
already present for that season is left alone. -/
def seMapInsert : List (String × List String) → String → String →
    List (String × List String)
  | [], s, e => [(s, [e])]
  | (s2, es) :: rest, s, e =>
    if s2 = s then (s2, if e ∈ es then es else es ++ [e]) :: rest
    else (s2, es) :: seMapInsert rest s e

/-- The glob-filtered filenames scanned by the nested loops of
determine_episodes (lines 420-423): for every directory listing, for
every pattern, the files of that listing matching the pattern, in
traversal order.  Each directory is given by its filename listing. -/
def scanCandidates (dirs : List (List String)) (pats : List String) : List String :=
  dirs.flatMap (fun files =>
    pats.flatMap (fun pat =>
      files.filter (fun f => globMatch (globOfString pat) f.data)))

/-- Processing of one scanned filename by determine_episodes (lines
424-431): extract the season/episode pair and insert it; a filename
either regex rejects is skipped silently; an exception from int
propagates. -/
def procEpisodeFile (sg eg : Re) (m : List (String × List String))
    (f : String) : Except PyErr (List (String × List String)) :=
  match extract_season_episode sg eg f with
  | .error err => .error err
  | .ok none => .ok m
  | .ok (some (s, e)) => .ok (seMapInsert m s e)

/-- Embedding of determine_episodes (lines 399-432 of _series.py): the
on-disk Season/Episode Map.  The directory walk is abstracted to the
list of per-directory filename listings; the nested loops over
directories, patterns and matching files are flattened into one fold
over scanCandidates, which performs the identical operations in the
identical order. -/
def determine_episodes (dirs : List (List String)) (pats : List String)
    (sg eg : Re) : Except PyErr (List (String × List String)) :=
  (scanCandidates dirs pats).foldlM (procEpisodeFile sg eg) []

/-! ## JSON values and the season-page JSON episode extraction -/

/-- A parsed JSON value (the result of json_loads). -/
inductive JVal where
  | null : JVal
  | bool : Bool → JVal
  | num : Int → JVal
  | str : String → JVal
  | arr : List JVal → JVal
  | obj : List (String × JVal) → JVal
deriving Inhabited

/-- Field lookup in a JSON object value. -/
def JVal.get? : JVal → String → Option JVal
  | .obj fields, key => fields.lookup key
  | _, _ => none

/-- Python `key in j` for a JSON object. -/
def JVal.hasKey (j : JVal) (key : String) : Bool :=
  (j.get? key).isSome

/-- Text rendering of a scalar JSON value when it is placed into an XML
text node (strings pass through, numbers render in decimal). -/
def jText : JVal → String
  | .str s => s
  | .num n => pyStrOfInt n
  | .bool true => "True"
  | .bool false => "False"
  | .null => "None"
  | .arr _ => "?"
  | .obj _ => "?"

/-- Embedding of _find_episodes_json (lines 281-299 of _series.py),
iterating an object's fields in order: a field named key is returned
immediately; an object-valued field is searched recursively and a hit
is returned; anything else is passed over. -/
def findEpJsonFields (key : String) : List (String × JVal) → Option JVal
  | [] => none
  | (k, v) :: rest =>
    if k = key then some v
    else
      match v with
      | .obj fs =>
        match findEpJsonFields key fs with
        | some r => some r
        | none => findEpJsonFields key rest
      | _ => findEpJsonFields key rest

/-- _find_episodes_json at the top level (the callers always hand it a
parsed JSON object). -/
def findEpJson (key : String) : JVal → Option JVal
  | .obj fields => findEpJsonFields key fields
  | _ => none

/-- One episode record as assembled by the extraction strategies in
_series.py: the unique id, season, episode and title, plus the fields
only present in some sources. -/
structure EpData where
  uid : String
  season : String
  episode : String
  title : String
  plot : Option String := none
  aired : Option (Nat × Nat × Nat) := none
  ratingValue : Option String := none
  ratingVotes : Option String := none
deriving Repr, DecidableEq

/-- Insertion of an episode record under its episode key: a repeated
key overwrites in place, as a Python dict assignment does. -/
def epMapInsert : List (String × EpData) → String → EpData →
    List (String × EpData)
  | [], e, d => [(e, d)]
  | (e2, d2) :: rest, e, d =>
    if e2 = e then (e2, d) :: rest else (e2, d2) :: epMapInsert rest e d

/-- Assembly of one item of the JSON episode listing (lines 316-333 of
_series.py): season, episode, id and titleText are accessed
unconditionally (KeyError when absent), plot and the rating pair only
when present, and the air date goes through releaseDate
year/month/day. -/
def epOfItem (item : JVal) : Except PyErr EpData :=
  match item with
  | .obj _ =>
    match item.get? "season", item.get? "episode",
        item.get? "id", item.get? "titleText" with
    | some sv, some ev, some iv, some tv =>
      let base : EpData :=
        { uid := jText iv, season := jText sv, episode := jText ev,
          title := jText tv }
      let base :=
        match item.get? "plot" with
        | some pv => { base with plot := some (jText pv) }
        | none => base
      let withAired : Except PyErr EpData :=
        if item.hasKey "aired" then
          match item.get? "releaseDate" with
          | some rd =>
            match rd.get? "year", rd.get? "month", rd.get? "day" with
            | some (.num y), some (.num m), some (.num d) =>
              .ok { base with aired := some (y.natAbs, m.natAbs, d.natAbs) }
            | _, _, _ => .error .keyError
          | none => .error .keyError
        else .ok base
      match withAired with
      | .error err => .error err
      | .ok b2 =>
        match item.get? "aggregateRating", item.get? "voteCount" with
        | some rv, some vv =>
          .ok { b2 with ratingValue := some (jText rv),
                        ratingVotes := some (jText vv) }
        | _, _ => .ok b2
    | _, _, _, _ => .error .keyError
  | _ => .error .typeError

/-- Embedding of extract_episodes_json (lines 302-334 of _series.py).
The source tests "items" in data on the value _find_episodes_json
returned without guarding against its None result, so a payload
without an "episodes" key at any depth raises TypeError.  A found
value without an "items" key yields the empty mapping. -/
def extract_episodes_json (j : JVal) : Except PyErr (List (String × EpData)) :=
  match j with
  | .obj _ =>
    match findEpJson "episodes" j with
    | none => .error .typeError
    | some data =>
      match data with
      | .obj fields =>
        match fields.lookup "items" with
        | some (.arr items) =>
          items.foldlM
            (fun acc item =>
              match epOfItem item with
              | .error err => .error err
              | .ok d => .ok (epMapInsert acc d.episode d)) []
        | some _ => .error .typeError
        | none => .ok []
      | .str s => if strIn "items" s then .error .typeError else .ok []
      | .arr items =>
        if items.any (fun v =>
            match v with
            | .str s => s = "items"
            | _ => false) then .error .typeError
        else .ok []
      | _ => .error .typeError
  | _ => .error .attributeError

/-! ## The OMDb release-date parser (src/kodi/omdb/_lib.py lines 92-113) -/

/-- The lowercase abbreviated month names of the C locale, as the %b
directive of strptime accepts them (matching is case-insensitive). -/
def monthAbbrs : List String :=
  ["jan", "feb", "mar", "apr", "may", "jun",
   "jul", "aug", "sep", "oct", "nov", "dec"]

/-- The lowercase full month names for the %B directive. -/
def monthFulls : List String :=
  ["january", "february", "march", "april", "may", "june",
   "july", "august", "september", "october", "november", "december"]

/-- Lowercasing of ASCII letters, as the case-insensitive month
matching of strptime performs it. -/
def lowerAscii (l : List Char) : List Char :=
  l.map (fun c =>
    if 65 ≤ c.toNat ∧ c.toNat ≤ 90 then Char.ofNat (c.toNat + 32) else c)

/-- The characters matched by a whitespace class of the re module on
str patterns (the ASCII whitespace and separator controls plus the
Unicode White_Space code points), which is what each space of a
strptime format expands to. -/
def isPySpace (c : Char) : Bool :=
  decide (c.toNat = 32 ∨ (9 ≤ c.toNat ∧ c.toNat ≤ 13) ∨
    (28 ≤ c.toNat ∧ c.toNat ≤ 31) ∨ c.toNat = 133 ∨ c.toNat = 160 ∨
    c.toNat = 5760 ∨ (8192 ≤ c.toNat ∧ c.toNat ≤ 8202) ∨
    c.toNat = 8232 ∨ c.toNat = 8233 ∨ c.toNat = 8239 ∨
    c.toNat = 8287 ∨ c.toNat = 12288)

/-- Is the first character whitespace? -/
def headIsWs (l : List Char) : Bool :=
  match l with
  | [] => false
  | c :: _ => isPySpace c

/-- Is the last character whitespace? -/
def lastIsWs (l : List Char) : Bool :=
  headIsWs l.reverse

/-- Accumulator pass splitting a string into its maximal runs of
non-whitespace characters (whitespace runs separate, and are
dropped). -/
def wsTokensAux : List Char → List Char → List (List Char)
  | [], cur => if cur.isEmpty then [] else [cur.reverse]
  | c :: rest, cur =>
    if isPySpace c then
      if cur.isEmpty then wsTokensAux rest []
      else cur.reverse :: wsTokensAux rest []
    else wsTokensAux rest (c :: cur)

/-- The maximal non-whitespace runs of a string. -/
def wsTokens (l : List Char) : List (List Char) :=
  wsTokensAux l []

/-- Position of a token in a name table (0-based), none when absent. -/
def monthIndex (t : List Char) : List (List Char) → Option Nat
  | [] => none
  | e :: rest => if t = e then some 0 else (monthIndex t rest).map (· + 1)

/-- 1-based month number of a token against a name table. -/
def monthOfToken (table : List String) (t : List Char) : Option Nat :=
  (monthIndex (lowerAscii t) (table.map String.data)).map (· + 1)

/-- The %d directive: one or two decimal digits valued 1 to 31. -/
def parseDay (t : List Char) : Option Nat :=
  if (t.length = 1 ∨ t.length = 2) ∧ t.all Char.isDigit then
    let v := natValOfDigits t
    if 1 ≤ v ∧ v ≤ 31 then some v else none
  else none

/-- The %Y directive: exactly four decimal digits. -/
def parseYear (t : List Char) : Option Nat :=
  if t.length = 4 ∧ t.all Char.isDigit then some (natValOfDigits t)
  else none

/-- Gregorian leap-year test, as the datetime module applies it. -/
def isLeap (y : Nat) : Bool :=
  y % 4 = 0 && (y % 100 ≠ 0 || y % 400 = 0)

/-- Days in a month of a year, as the datetime constructor validates. -/
def daysInMonth (m y : Nat) : Nat :=
  if m = 2 then (if isLeap y then 29 else 28)
  else if m = 4 ∨ m = 6 ∨ m = 9 ∨ m = 11 then 30
  else 31

/-- strptime for the formats "%d %b %Y" and "%d %B %Y", as the
re-based engine of the _strptime module matches them: each space of
the format matches a nonempty whitespace run, the %d directive matches
one or two digits valued 1 to 31 or a single ASCII space followed by a
nonzero digit, the month token is matched case-insensitively against
the given name table, the year takes exactly four digits, the whole
string must be consumed (so stray leading or trailing whitespace
fails), and the assembled date is validated by the datetime
constructor (year at least 1, day within the month). -/
def strptimeDMY (table : List String) (s : String) : Option (Nat × Nat × Nat) :=
  let finish : Nat → List Char → List Char → Option (Nat × Nat × Nat) :=
    fun d mTok yTok =>
      match monthOfToken table mTok, parseYear yTok with
      | some m, some y =>
        if 1 ≤ y ∧ d ≤ daysInMonth m y then some (y, m, d) else none
      | _, _ => none
  if headIsWs s.data = false ∧ lastIsWs s.data = false then
    match wsTokens s.data with
    | [dTok, mTok, yTok] =>
      match parseDay dTok with
      | some d => finish d mTok yTok
      | none => none
    | _ => none
  else
    match s.data with
    | ' ' :: c :: rest =>
      if c.isDigit && decide (1 ≤ charDigit c) && headIsWs rest &&
          !lastIsWs rest then
        match wsTokens rest with
        | [mTok, yTok] => finish (charDigit c) mTok yTok
        | _ => none
      else none
    | _ => none

/-- Two-digit zero-padded decimal rendering (the %m and %d output
directives). -/
def pad2 (n : Nat) : String :=
  if n < 10 then "0" ++ natToStr n else natToStr n

/-- strftime("%Y-%m-%d") of a validated date. -/
def isoDate (y m d : Nat) : String :=
  natToStr y ++ "-" ++ pad2 m ++ "-" ++ pad2 d

/-- Embedding of _parse_date (lines 92-113 of omdb/_lib.py): try the
abbreviated month form, then the full month form, and render a hit as
an ISO date; None when both forms fail. -/
def parse_date (s : String) : Option String :=
  match strptimeDMY monthAbbrs s with
  | some (y, m, d) => some (isoDate y m d)
  | none =>
    match strptimeDMY monthFulls s with
    | some (y, m, d) => some (isoDate y m d)
    | none => none

/-- The premiered children emitted by generate_omdb (lines 179-182 of
omdb/_lib.py): present exactly when the payload has a Released field
that _parse_date accepts. -/
def premieredNodes (released : Option String) : List String :=
  match released with
  | none => []
  | some s =>
    match parse_date s with
    | none => []
    | some d => [d]

/-! ## XML documents and their pretty-printed rendering -/

/-- A minidom element or text node. -/
inductive XNode where
  | el : String → List (String × String) → List XNode → XNode
  | txt : String → XNode
deriving Inhabited

/-- Attribute rendering inside a start tag. -/
def renderAttrs (attrs : List (String × String)) : String :=
  attrs.foldl (fun acc nv => acc ++ " " ++ nv.1 ++ "=\"" ++ nv.2 ++ "\"") ""

/-- Pretty-printed lines of one node at the given indentation, in the
style of minidom.toprettyxml(indent="  "); the fuel argument bounds the
nesting depth and is ample at every call site (documents here nest at
most four levels). -/
def renderNode (fuel : Nat) (ind : String) (n : XNode) : List String :=
  match fuel, n with
  | 0, _ => []
  | _ + 1, .txt s => [ind ++ s]
  | _ + 1, .el tag attrs [] => [ind ++ "<" ++ tag ++ renderAttrs attrs ++ "/>"]
  | _ + 1, .el tag attrs [.txt s] =>
    [ind ++ "<" ++ tag ++ renderAttrs attrs ++ ">" ++ s ++ "</" ++ tag ++ ">"]
  | fuel + 1, .el tag attrs children =>
    (ind ++ "<" ++ tag ++ renderAttrs attrs ++ ">")
      :: (children.flatMap (renderNode fuel (ind ++ "  "))
        ++ [ind ++ "</" ++ tag ++ ">"])

/-- The XML prolog line that toprettyxml places first. -/
def xmlProlog : String := "<?xml version=\"1.0\" ?>"

/-- toprettyxml of a document given as its list of root elements (the
script loop of generate_imdb appends one root per structured-data
block); ends with a newline as minidom output does. -/
def prettyXml (doc : List (String × List XNode)) : String :=
  String.intercalate "\n"
    (xmlProlog :: doc.flatMap (fun r => renderNode 8 "" (.el r.1 [] r.2)))
    ++ "\n"

/-- Embedding of episode_to_xml (lines 337-369 of _series.py) composed
with toprettyxml: the episodedetails fragment for one episode record.
Keys are emitted in record-insertion order, the underscore-keyed
unique id and rating follow with their fixed attributes. -/
def episode_to_xml (ep : EpData) : String :=
  let children : List XNode :=
    [.el "season" [] [.txt ep.season],
     .el "episode" [] [.txt ep.episode],
     .el "title" [] [.txt ep.title]]
    ++ (match ep.plot with
        | some p => [.el "plot" [] [.txt p]]
        | none => [])
    ++ (match ep.aired with
        | some ymd => [.el "aired" [] [.txt (isoDate ymd.1 ymd.2.1 ymd.2.2)]]
        | none => [])
    ++ [.el "uniqueid" [("type", "imdb"), ("default", "true")] [.txt ep.uid]]
    ++ (match ep.ratingValue with
        | some rv =>
          [.el "ratings" []
            [.el "ratings" [("name", "imdb"), ("max", "10"), ("default", "true")]
              ([.el "value" [] [.txt rv]]
                ++ (match ep.ratingVotes with
                    | some vv => [.el "votes" [] [.txt vv]]
                    | none => []))]]
        | none => [])
  prettyXml [("episodedetails", children)]

/-! ## Multi-episode concatenation (lines 325-329 and 352-356 of _lib.py) -/

/-- The lines of one pretty-printed fragment after Python
strip().split(newline). -/
def fragLines (fragment : String) : List String :=
  (splitChar '\n' (pyStrip fragment.data)).map String.mk

/-- One execution of lines 326-329 of imdb/_lib.py: split the fragment
into lines and, when output was already accumulated and the first line
carries the XML prolog, drop that first line; then extend. -/
def appendFragment (doc_multi : List String) (fragment : String) : List String :=
  let xml_lines := fragLines fragment
  let xml_lines :=
    if decide (0 < doc_multi.length) && strIn "<?xml" (xml_lines.headD "") then
      xml_lines.tail
    else xml_lines
  doc_multi ++ xml_lines

/-- The accumulated multi-episode lines for a list of fragments. -/
def multiEpisodeLines (frags : List String) : List String :=
  frags.foldl appendFragment []

/-- The multi-episode file content (line 354 of imdb/_lib.py). -/
def multiEpisodeDoc (frags : List String) : String :=
  String.intercalate "\n" (multiEpisodeLines frags)

/-! ## Season/episode reconciliation (lines 311-333 of imdb/_lib.py) -/

/-- The (directory, filename) pairs scanned by the reconciliation loop,
in traversal order: for every directory, for every configured glob
pattern, the matching files of that directory's listing. -/
def scanPairCandidates (dirs : List (String × List String))
    (pats : List String) : List (String × String) :=
  dirs.flatMap (fun d =>
    pats.flatMap (fun pat =>
      (d.2.filter (fun f => globMatch (globOfString pat) f.data)).map
        (fun f => (d.1, f))))

/-- season_data as assembled by lines 281-309: one entry per on-disk
season in processing order, holding whatever episode keys the remote
season fetch produced for it (empty when the fetch failed or the
season is unknown remotely). -/
def buildSeasonData (diskSeasons : List String)
    (remote : List (String × List String)) : List (String × List String) :=
  diskSeasons.map (fun s => (s, (remote.lookup s).getD []))

/-- Presence of a season/episode key pair in a season map. -/
def keyIn (m : List (String × List String)) (s e : String) : Bool :=
  match m.lookup s with
  | some es => es.contains e
  | none => false

/-- One step of the reconciliation loop (lines 317-324): sidecar files
are skipped, a failed extraction is skipped, an extraction raising
propagates, and a key pair present in season_data emits one pairing. -/
def reconcileStep (sg eg : Re) (sd : List (String × List String))
    (acc : List (String × String × String × String)) (df : String × String) :
    Except PyErr (List (String × String × String × String)) :=
  if strEndsWith ".nfo" df.2 then .ok acc
  else
    match extract_season_episode sg eg df.2 with
    | .error err => .error err
    | .ok none => .ok acc
    | .ok (some (s, e)) =>
      .ok (acc ++ if keyIn sd s e then [(df.1, df.2, s, e)] else [])

/-- The pairing decisions of the reconciliation loop (lines 314-324):
for each scanned non-sidecar file whose season/episode extraction
succeeds and whose key pair is present in season_data, one pairing of
that file with that remote episode record is produced. -/
def reconcile_pairs (dirs : List (String × List String)) (pats : List String)
    (sg eg : Re) (sd : List (String × List String)) :
    Except PyErr (List (String × String × String × String)) :=
  (scanPairCandidates dirs pats).foldlM (reconcileStep sg eg sd) []

/-! ## Assorted helpers for generate_imdb -/

/-- Association-list upsert with Python dict semantics: a repeated key
overwrites in place, a fresh key is appended at the end. -/
def assocUpsert {β : Type} : List (String × β) → String → β → List (String × β)
  | [], k, v => [(k, v)]
  | (k2, v2) :: rest, k, v =>
    if k2 = k then (k2, v) :: rest else (k2, v2) :: assocUpsert rest k v

/-- Python str.strip on a String. -/
def pyStripStr (s : String) : String := String.mk (pyStrip s.data)

/-- str.replace with a nonempty pattern; the fuel is the input length
and ample since every step consumes at least one character. -/
def replaceAllAux (needle repl : List Char) : Nat → List Char → List Char
  | 0, l => l
  | _ + 1, [] => []
  | fuel + 1, c :: rest =>
    if leadsWith needle (c :: rest) then
      repl ++ replaceAllAux needle repl fuel ((c :: rest).drop needle.length)
    else c :: replaceAllAux needle repl fuel rest

/-- Python str.replace on String values (patterns here are nonempty). -/
def replaceStr (s needle repl : String) : String :=
  if needle.data.isEmpty then s
  else String.mk (replaceAllAux needle.data repl.data (s.data.length + 1) s.data)

/-- os.path.splitext(f)[0]: the filename without its last extension
(a lone leading dot does not split). -/
def stemOf (f : String) : String :=
  let rev := f.data.reverse
  match rev.dropWhile (fun c => c ≠ '.') with
  | '.' :: rest => if rest = [] then f else String.mk rest.reverse
  | _ => f

/-- Ordered insertion for the sort below. -/
def insertSorted (le : α → α → Bool) (a : α) : List α → List α
  | [] => [a]
  | b :: rest => if le a b then a :: b :: rest else b :: insertSorted le a rest

/-- Insertion sort with a boolean comparison. -/
def insSortBy (le : α → α → Bool) (l : List α) : List α :=
  l.foldr (insertSorted le) []

/-- sorted(keys, key=int) with the plain-sort fallback of lines 274-277
of imdb/_lib.py: numeric order when every key parses as an int,
lexicographic string order otherwise. -/
def sortSeasonKeys (ks : List String) : List String :=
  if ks.all (fun k => (pyInt? k).isSome) then
    insSortBy (fun a b => decide ((pyInt? a).getD 0 ≤ (pyInt? b).getD 0)) ks
  else
    insSortBy (fun a b => decide (a < b) || a == b) ks

/-! ## The generate_imdb orchestration (src/kodi/imdb/_lib.py lines 94-360)

HTTP transport and page parsing are external: the environment supplies
the status codes of the fetches and the parsed content of the pages
(the structured-data blocks as JSON values, the season/episode records
the HTML fallback parser of BeautifulSoup would deliver).  The model
records an effect trace of the network requests, log calls and parse
steps the function performs. -/

/-- An observable step of generate_imdb. -/
inductive Effect where
  | httpGet : String → Effect
  | logCritical : Effect
  | logWarning : Effect
  | parsePage : Effect
deriving DecidableEq, Repr

/-- Embedding of has_episodes (lines 34-43 of _series.py). -/
def has_episodes (j : JVal) : Bool :=
  match j.get? "@type" with
  | some (.str s) => s = "TVSeries"
  | _ => false

/-- Embedding of create_episodes_url (lines 46-60 of _series.py). -/
def create_episodes_url (id : String) (season : Option String) : String :=
  "https://www.imdb.com/title/" ++ id ++ "/episodes/"
    ++ (match season with
        | none => ""
        | some s => "?season=" ++ s)

/-- The outside world of one generate_imdb call. -/
structure Env where
  path : String
  base : String
  titleStatus : Nat
  titleBlocks : List JVal
  widgetTitle : Option String
  appBlocks : List JVal
  epIndexStatus : Nat
  remoteSeasons : List String
  seasonStatus : String → Nat
  seasonBlocks : String → List JVal
  seasonHtmlEpisodes : String → List (String × EpData)
  imageStatus : Nat
  dirsListing : List (String × List String)

/-- The keyword arguments of generate_imdb. -/
structure GenArgs where
  tid : String
  fanart : String := "none"
  fanart_file : String := "folder.jpg"
  overwrite : Bool := false
  dry_run : Bool := false
  episodes : Bool := false
  episode_pattern : List String := ["*S??E??*.*"]
  sg : Re := default_season_group
  eg : Re := default_episode_group
  multi_episodes : Bool := false

/-- The mutable state threaded through the structured-data loop of
generate_imdb: the accumulated document roots, the has_actors flag,
the (possibly tvshow-switched) output path, the multi-episode line
buffer, the generated flag, the filesystem and the effect trace. -/
structure GState where
  doc : List (String × List XNode)
  hasActors : Bool
  xmlPath : String
  docMulti : List String
  outputGenerated : Bool
  fs : FS
  effs : List Effect

/-- Python iteration over the value of an optional JSON field, as the
loops over j.get("director", ()) and j.get("actor", ()) perform it:
lists iterate their items, strings their characters, objects their
keys; other scalars are not iterable. -/
def iterTargets : Option JVal → Except PyErr (List JVal)
  | none => .ok []
  | some (.arr l) => .ok l
  | some (.str s) => .ok (s.data.map (fun c => .str (String.mk [c])))
  | some (.obj fields) => .ok (fields.map (fun kv => JVal.str kv.1))
  | some _ => .error .typeError

/-- One director entry (lines 195-197): entries with a name field
produce one node, entries without are skipped; a non-object entry that
passes the "name" in director test is then indexed and raises. -/
def directorNode (d : JVal) : Except PyErr (List XNode) :=
  match d with
  | .obj _ =>
    match d.get? "name" with
    | some nv => .ok [.el "director" [] [.txt (jText nv)]]
    | none => .ok []
  | .str s => if strIn "name" s then .error .typeError else .ok []
  | .arr l =>
    if l.any (fun v =>
        match v with
        | .str s2 => s2 = "name"
        | _ => false) then .error .typeError
    else .ok []
  | _ => .error .typeError

/-- One actor entry (lines 204-207): the name field is accessed
unconditionally, so an actor object without it raises KeyError. -/
def actorNode (a : JVal) : Except PyErr XNode :=
  match a with
  | .obj _ =>
    match a.get? "name" with
    | some nv => .ok (.el "actor" [] [.el "name" [] [.txt (jText nv)]])
    | none => .error .keyError
  | _ => .error .typeError

/-- The children of one title root, built from one structured-data
block (lines 182-215 of imdb/_lib.py), together with the has_actors
contribution of this block. -/
def titleChildren (j : JVal) (widget : Option String) :
    Except PyErr (Bool × List XNode) := do
  let title ←
    match widget with
    | some t => pure t
    | none =>
      match j.get? "name" with
      | some v => pure (jText v)
      | none => Except.error PyErr.keyError
  let origTitle ←
    match j.get? "name" with
    | some v => pure (jText v)
    | none => Except.error PyErr.keyError
  let uidSrc ←
    match j.get? "url" with
    | some v => pure (jText v)
    | none => Except.error PyErr.keyError
  let uid := replaceStr (replaceStr uidSrc "/title/" "") "/" ""
  let nodes :=
    [XNode.el "title" [] [.txt title],
     XNode.el "originaltitle" [] [.txt origTitle],
     XNode.el "uniqueid" [("type", "imdb"), ("default", "true")] [.txt uid]]
  let nodes := nodes ++
    (match j.get? "description" with
     | some v => [XNode.el "plot" [] [.txt (jText v)],
                  XNode.el "outline" [] [.txt (jText v)]]
     | none => [])
  let nodes := nodes ++
    (match j.get? "contentRating" with
     | some v => [XNode.el "mpaa" [] [.txt (jText v)]]
     | none => [])
  let nodes := nodes ++
    (match j.get? "datePublished" with
     | some v => [XNode.el "premiered" [] [.txt (jText v)]]
     | none => [])
  let dirTargets ← iterTargets (j.get? "director")
  let dirNodes ← dirTargets.foldlM
    (fun acc d => do
      let ns ← directorNode d
      pure (acc ++ ns)) []
  let nodes := nodes ++ dirNodes
  let nodes := nodes ++
    (match j.get? "genre" with
     | some (.arr gl) => gl.map (fun g => XNode.el "genre" [] [.txt (jText g)])
     | some v => [XNode.el "genre" [] [.txt (jText v)]]
     | none => [])
  let actTargets ← iterTargets (j.get? "actor")
  let actNodes ← actTargets.foldlM
    (fun acc a => do
      let n ← actorNode a
      pure (acc ++ [n])) []
  let nodes := nodes ++ actNodes
  let hasAct := !actNodes.isEmpty
  let nodes := nodes ++
    (match j.get? "trailer" with
     | some t =>
       match t.get? "embedUrl" with
       | some ev => [XNode.el "trailer" [] [.txt (jText ev)]]
       | none => []
     | none => [])
  let nodes := nodes ++
    (match j.get? "aggregateRating" with
     | some ar =>
       match ar.get? "ratingValue" with
       | some rv =>
         [XNode.el "ratings" []
           [XNode.el "rating" [("name", "imdb"), ("max", "10")]
             [.el "value" [] [.txt (jText rv)]]]]
       | none => []
     | none => [])
  pure (hasAct, nodes)

/-- The fanart block (lines 217-248 of imdb/_lib.py): resolve the
download-missing action against the filesystem, then download (one
fetch, written on status 200, critical log otherwise), reuse the
existing file, do nothing, or log an unhandled action; returns the
thumb nodes to append, the filesystem and the effects emitted. -/
def fanartStep (env : Env) (a : GenArgs) (j : JVal) (fs : FS) :
    List XNode × FS × List Effect :=
  let fanart_path := env.path ++ "/" ++ a.fanart_file
  let act :=
    if a.fanart = "download-missing" then
      if pathExists fs fanart_path then "use-existing" else "download"
    else a.fanart
  if act = "download" then
    match j.get? "image" with
    | some img =>
      if env.imageStatus = 200 then
        ([XNode.el "thumb" [("aspect", "poster")] [.txt a.fanart_file]],
         fsWrite fs fanart_path "<binary image data>",
         [.httpGet (jText img)])
      else ([], fs, [.httpGet (jText img), .logCritical])
    | none => ([], fs, [.logWarning])
  else if act = "use-existing" then
    ([XNode.el "thumb" [("aspect", "poster")] [.txt a.fanart_file]], fs, [])
  else if act = "none" then ([], fs, [])
  else ([], fs, [.logCritical])

/-- The per-season JSON extraction loop (lines 292-302): every
application/json script of the season page goes through
extract_episodes_json; an empty result requests the HTML fallback, a
nonempty one contributes rendered fragments keyed by episode. -/
def seasonScriptsFold (blocks : List JVal) :
    Except PyErr (List (String × String) × Bool) :=
  blocks.foldlM
    (fun acc ep_j =>
      match extract_episodes_json ep_j with
      | .error err => .error err
      | .ok epsData =>
        if epsData.length = 0 then .ok (acc.1, true)
        else
          .ok (epsData.foldl
            (fun en ke => assocUpsert en ke.1 (episode_to_xml ke.2)) acc.1,
            acc.2))
    ([], false)

/-- Processing of one season (lines 282-309): fetch the season page
(critical log and empty data on a bad status), then the JSON strategy
with the HTML fallback. -/
def seasonData1 (env : Env) (tid season : String) :
    Except PyErr (List (String × String) × List Effect) :=
  let effs := [Effect.httpGet (create_episodes_url tid (some season))]
  if env.seasonStatus season ≠ 200 then .ok ([], effs ++ [.logCritical])
  else
    match seasonScriptsFold (env.seasonBlocks season) with
    | .error err => .error err
    | .ok (entries, fallback) =>
      let entries :=
        if fallback then
          (env.seasonHtmlEpisodes season).foldl
            (fun en ke => assocUpsert en ke.1 (episode_to_xml ke.2)) entries
        else entries
      .ok (entries, effs)

/-- The episode generation sub-procedure for one series block (lines
259-333 of imdb/_lib.py): fetch the episodes index (on a bad status a
critical log and nothing else happens for this block), scan the disk
for the on-disk Season/Episode Map, fetch and extract every on-disk
season in sorted order, and run the reconciliation loop, writing one
sidecar per matched file or accumulating multi-episode fragments. -/
def episodesStep (env : Env) (a : GenArgs) (tid : String) (st : GState) :
    Except PyErr GState :=
  if ¬a.episodes then .ok st
  else
    let effs := st.effs ++ [Effect.httpGet (create_episodes_url tid none)]
    if env.epIndexStatus ≠ 200 then
      .ok { st with effs := effs ++ [.logCritical] }
    else
      match determine_episodes (env.dirsListing.map Prod.snd)
          a.episode_pattern a.sg a.eg with
      | .error err => .error err
      | .ok seasons_episodes =>
        let seasons_sorted := sortSeasonKeys (seasons_episodes.map Prod.fst)
        let seasonStep (acc : List (String × List (String × String)) × List Effect)
            (season : String) :
            Except PyErr (List (String × List (String × String)) × List Effect) :=
          match seasonData1 env tid season with
          | .error err => .error err
          | .ok (entries, effs1) =>
            .ok (acc.1 ++ [(season, entries)], acc.2 ++ effs1)
        match seasons_sorted.foldlM seasonStep ([], effs) with
        | .error err => .error err
        | .ok (sd, effs2) =>
          let st := { st with effs := effs2 }
          (scanPairCandidates env.dirsListing a.episode_pattern).foldlM
            (fun st2 df =>
              if strEndsWith ".nfo" df.2 then .ok st2
              else
                match extract_season_episode a.sg a.eg df.2 with
                | .error err => .error err
                | .ok none => .ok st2
                | .ok (some (s, e)) =>
                  match (sd.lookup s).bind (fun entries => entries.lookup e) with
                  | none => .ok st2
                  | some frag =>
                    if a.multi_episodes then
                      .ok { st2 with docMulti := appendFragment st2.docMulti frag }
                    else
                      let xml_path_ep := df.1 ++ "/" ++ stemOf df.2 ++ ".nfo"
                      match output_xml frag xml_path_ep a.dry_run a.overwrite
                          (some ()) st2.fs with
                      | .error err => .error err
                      | .ok (g, fs2) =>
                        .ok { st2 with
                              fs := fs2
                              outputGenerated := st2.outputGenerated || g })
            st

/-- Processing of one structured-data block by the script loop of
generate_imdb (lines 178-333): build the title children, run the
fanart block, append the new root (movie, or tvshow with the output
path switched when the block carries the series type tag), and for a
series run the episode sub-procedure. -/
def processScript (env : Env) (a : GenArgs) (tid : String) (st : GState)
    (j : JVal) : Except PyErr GState :=
  match titleChildren j env.widgetTitle with
  | .error err => .error err
  | .ok (hasAct, nodes) =>
    let fan := fanartStep env a j st.fs
    let isSeries := has_episodes j
    let st :=
      { st with
        doc := st.doc ++ [(if isSeries then "tvshow" else "movie",
                           nodes ++ fan.1)],
        hasActors := st.hasActors || hasAct,
        fs := fan.2.1,
        effs := st.effs ++ fan.2.2,
        xmlPath := if isSeries then env.path ++ "/tvshow.nfo" else st.xmlPath }
    if isSeries then episodesStep env a tid st else .ok st

/-- Embedding of find_sub_dict (src/kodi/utils.py lines 4-26): the
first object value reachable under the key, searching fields in order
and recursively (only object values participate). -/
def findSubDictFields (key : String) : List (String × JVal) → Option JVal
  | [] => none
  | (k, v) :: rest =>
    match v with
    | .obj fs =>
      if k = key then some v
      else
        match findSubDictFields key fs with
        | some r => some r
        | none => findSubDictFields key rest
    | _ => findSubDictFields key rest

/-- find_sub_dict at the top level. -/
def find_sub_dict (j : JVal) (key : String) : Option JVal :=
  match j with
  | .obj fields => findSubDictFields key fields
  | _ => none

/-- Embedding of get_nested_value (src/kodi/utils.py lines 29-47) for
object-shaped payloads. -/
def get_nested_value : JVal → List String → Option JVal
  | _, [] => none
  | j, k :: rest =>
    match j.get? k with
    | none => none
    | some v => if rest = [] then some v else get_nested_value v rest

/-- The cast fallback (lines 336-350 of imdb/_lib.py): when no actor
was found in the structured data, search the application/json blocks
for a castPageTitle object and turn each of its edges into an actor
node appended to the last root. -/
def castFallbackNodes (appBlocks : List JVal) : List XNode :=
  appBlocks.flatMap (fun j =>
    match find_sub_dict j "castPageTitle" with
    | none => []
    | some cast =>
      match cast.get? "edges" with
      | some (.arr edges) =>
        edges.map (fun aEdge =>
          XNode.el "actor" []
            [XNode.el "name" []
              (match get_nested_value aEdge ["node", "name", "nameText", "text"] with
               | some nv => [.txt (jText nv)]
               | none => [])])
      | _ => [])

/-- Appending nodes to the children of the last document root (the
Python code holds a reference to the root created last). -/
def appendToLastRoot (doc : List (String × List XNode)) (extra : List XNode) :
    List (String × List XNode) :=
  match doc.reverse with
  | [] => doc
  | (tag, children) :: revRest => ((tag, children ++ extra) :: revRest).reverse

/-- Embedding of generate_imdb (lines 94-360 of imdb/_lib.py).  The
result is the generated flag, the filesystem after the call and the
effect trace; exceptions escape as errors (the caller iterate_imdb
logs them).  The sidecar skip check runs before any network request;
a non-200 title fetch logs critical and returns immediately. -/
def generate_imdb (env : Env) (a : GenArgs) (fs : FS) :
    Except PyErr (Bool × FS × List Effect) :=
  let tid := pyStripStr a.tid
  if ¬a.overwrite ∧ (get_nfo_file fs env.path env.base).isSome then
    .ok (false, fs, [])
  else
    let xml_path := env.path ++ "/" ++ env.base ++ ".nfo"
    let xml_path_multi := env.path ++ "/multi-episode.nfo"
    let url :=
      if leadsWith "http".data tid.data then tid
      else "https://www.imdb.com/title/" ++ tid ++ "/"
    let effs := [Effect.httpGet url]
    if env.titleStatus ≠ 200 then .ok (false, fs, effs ++ [.logCritical])
    else
      let st0 : GState :=
        { doc := [], hasActors := false, xmlPath := xml_path, docMulti := [],
          outputGenerated := false, fs := fs, effs := effs ++ [.parsePage] }
      match env.titleBlocks.foldlM (processScript env a tid) st0 with
      | .error err => .error err
      | .ok st =>
        let st :=
          if !st.doc.isEmpty && !st.hasActors then
            { st with doc := appendToLastRoot st.doc (castFallbackNodes env.appBlocks) }
          else st
        let afterMulti : Except PyErr GState :=
          if a.multi_episodes then
            match output_str (String.intercalate "\n" st.docMulti) xml_path_multi
                a.dry_run a.overwrite (some ()) st.fs with
            | .error err => .error err
            | .ok (g, fs2) =>
              .ok { st with
                    fs := fs2
                    outputGenerated := st.outputGenerated || g }
          else .ok st
        match afterMulti with
        | .error err => .error err
        | .ok st =>
          match output_xml (prettyXml st.doc) st.xmlPath a.dry_run a.overwrite
              (some ()) st.fs with
          | .error err => .error err
          | .ok (g, fs2) =>
            .ok (st.outputGenerated || g, fs2, st.effs)

/-- The title-page URL generate_imdb builds from its (stripped)
identifier argument (lines 147-150). -/
def titleUrl (tid : String) : String :=
  if leadsWith "http".data (pyStripStr tid).data then pyStripStr tid
  else "https://www.imdb.com/title/" ++ pyStripStr tid ++ "/"

/-- A baseline environment for concrete runs: a successful title fetch
of a page with no content at all. -/
def envBase : Env :=
  { path := "/m/Movie (2020)"
    base := "Movie (2020)"
    titleStatus := 200
    titleBlocks := []
    widgetTitle := none
    appBlocks := []
    epIndexStatus := 200
    remoteSeasons := []
    seasonStatus := fun _ => 200
    seasonBlocks := fun _ => []
    seasonHtmlEpisodes := fun _ => []
    imageStatus := 200
    dirsListing := [] }

/-- The structured-data block of the end-to-end scenario of the spec. -/
def movieBlock : JVal :=
  .obj [("name", .str "Movie"), ("url", .str "/title/tt1234567/"),
        ("description", .str "A film."), ("genre", .arr [.str "Drama"]),
        ("actor", .arr [.obj [("name", .str "Alice")]])]

/-! # Decidability of Except equality, for concrete evaluations -/

instance {ε α : Type} [DecidableEq ε] [DecidableEq α] :
    DecidableEq (Except ε α) := fun x y =>
  match x, y with
  | .error a, .error b =>
    if h : a = b then .isTrue (by rw [h])
    else .isFalse (fun hc => h (Except.error.inj hc))
  | .ok a, .ok b =>
    if h : a = b then .isTrue (by rw [h])
    else .isFalse (fun hc => h (Except.ok.inj hc))
  | .error _, .ok _ => .isFalse (fun hc => Except.noConfusion hc)
  | .ok _, .error _ => .isFalse (fun hc => Except.noConfusion hc)

/-! # Claim theorems -/

/-- C5: every call of the sidecar write operations output_xml and
output_str with dry_run true returns false and leaves the filesystem
untouched, for every overwrite flag, logger and prior state of the
target path. -/
theorem c5_dry_run_pure :
    (∀ doc path overwrite logger fs,
      output_xml doc path true overwrite logger fs = .ok (false, fs)) ∧
    (∀ content path overwrite logger fs,
      output_str content path true overwrite logger fs = .ok (false, fs)) :=
  ⟨fun _ _ _ _ _ => rfl, fun _ _ _ _ _ => rfl⟩

/-- C9: output_xml is not total in its logger argument: with dry_run
false, overwrite false and logger None, an existing target path makes
the skip branch call the absent logger and raise AttributeError, while
a fresh target path is written without consulting the logger. -/
theorem c9_logger_partiality :
    (∀ doc path fs, pathExists fs path = true →
      output_xml doc path false false none fs = .error .attributeError) ∧
    (∀ doc path fs, pathExists fs path = false →
      output_xml doc path false false none fs = .ok (true, fsWrite fs path doc)) := by
  constructor
  · intro doc path fs h
    simp [output_xml, h]
  · intro doc path fs h
    simp [output_xml, h]

/-- Witness for C9 at a concrete filesystem holding one file. -/
theorem c9_witness :
    output_xml "<x/>" "/d/f.nfo" false false none [("/d/f.nfo", "old")] =
      .error .attributeError ∧
    output_xml "<x/>" "/d/g.nfo" false false none [("/d/f.nfo", "old")] =
      .ok (true, fsWrite [("/d/f.nfo", "old")] "/d/g.nfo" "<x/>") :=
  ⟨c9_logger_partiality.1 "<x/>" "/d/f.nfo" [("/d/f.nfo", "old")] (by decide),
   c9_logger_partiality.2 "<x/>" "/d/g.nfo" [("/d/f.nfo", "old")] (by decide)⟩

/-- C4: a season-page JSON payload without an "episodes" key at any
depth does not give the empty mapping: _find_episodes_json returns
None for it and extract_episodes_json then evaluates "items" in None,
which raises TypeError instead of falling through to the HTML
strategies.  A payload that does carry an "episodes" object without
episode items yields the empty mapping as the intended fall-through
path. -/
theorem c4_missing_episodes_key_raises :
    extract_episodes_json (JVal.obj [("a", JVal.num 1)]) = .error .typeError ∧
    findEpJson "episodes" (JVal.obj [("a", JVal.num 1)]) = none ∧
    extract_episodes_json (JVal.obj [("episodes", JVal.obj [])]) = .ok [] := by
  refine ⟨?_, ?_, ?_⟩ <;>
    simp [extract_episodes_json, findEpJson, findEpJsonFields]

/-- C1 counterexample: with the default capture regexes the filename
"Show.S001E002.mkv" is not normalized to the key pair ("1","2"); the
season pattern admits at most two digits directly before the E, so the
extraction returns None for it. -/
theorem c1_counterexample :
    extract_season_episode default_season_group default_episode_group
      "Show.S001E002.mkv" = .ok none ∧
    extract_season_episode default_season_group default_episode_group
      "Show.S001E002.mkv" ≠ .ok (some ("1", "2")) := by
  refine ⟨rfl, ?_⟩
  intro h
  exact Option.noConfusion (Except.ok.inj h)

/-- C1 amended: with the default capture regexes the filenames
"Show.S01E02.mkv" and "Show.S1E2.mkv" both normalize to the key pair
("1","2") — captures are parsed as ints and re-rendered without
leading zeros — and scanning a directory holding all three spec
filenames yields the single-entry map for season "1", episode "2",
the "S001E002" filename being silently excluded because the default
season regex does not match it. -/
theorem c1_amended :
    extract_season_episode default_season_group default_episode_group
      "Show.S01E02.mkv" = .ok (some ("1", "2")) ∧
    extract_season_episode default_season_group default_episode_group
      "Show.S1E2.mkv" = .ok (some ("1", "2")) ∧
    extract_season_episode default_season_group default_episode_group
      "Show.S001E002.mkv" = .ok none ∧
    determine_episodes
      [["Show.S01E02.mkv", "Show.S1E2.mkv", "Show.S001E002.mkv"]] ["*"]
      default_season_group default_episode_group = .ok [("1", ["2"])] :=
  ⟨rfl, rfl, rfl, rfl⟩

/-- C7: when a sidecar already exists in the directory (the movie-style
basename sidecar or the fixed tvshow.nfo, as get_nfo_file checks) and
overwrite is false, generate_imdb reports no file generated and its
effect trace is empty — in particular no HTTP request is issued, the
existing-sidecar check coming before any fetch. -/
theorem c7_skip_existing (env : Env) (a : GenArgs) (fs : FS)
    (hov : a.overwrite = false)
    (hex : (get_nfo_file fs env.path env.base).isSome = true) :
    generate_imdb env a fs = .ok (false, fs, []) := by
  simp [generate_imdb, hov, hex]

/-- Witness for C7: a movie-style sidecar and a tvshow sidecar each
suppress generation with an empty effect trace. -/
theorem c7_witness :
    generate_imdb envBase { tid := "tt1234567" }
      [("/m/Movie (2020)/Movie (2020).nfo", "x")] =
      .ok (false, [("/m/Movie (2020)/Movie (2020).nfo", "x")], []) ∧
    generate_imdb envBase { tid := "tt1234567" }
      [("/m/Movie (2020)/tvshow.nfo", "x")] =
      .ok (false, [("/m/Movie (2020)/tvshow.nfo", "x")], []) :=
  ⟨c7_skip_existing envBase { tid := "tt1234567" } _ rfl (by decide),
   c7_skip_existing envBase { tid := "tt1234567" } _ rfl (by decide)⟩

/-- C3 counterexample: a title fetch answered with status 500 whose
body nevertheless carries a complete structured-data movie block.
generate_imdb logs critical and returns immediately: the trace holds
only the fetch and the critical log — no parse step, no title record,
no write — so scraping does not proceed on the returned content. -/
theorem c3_counterexample :
    generate_imdb { envBase with titleStatus := 500, titleBlocks := [movieBlock] }
      { tid := "tt1234567" } [] =
      .ok (false, [],
        [.httpGet "https://www.imdb.com/title/tt1234567/", .logCritical]) ∧
    Effect.parsePage ∉
      [Effect.httpGet "https://www.imdb.com/title/tt1234567/", Effect.logCritical] := by
  exact ⟨rfl, by decide⟩

/-- C3 amended: a non-200 title fetch makes generate_imdb log critical
and return false at once, with no scraping and no writes; scraping
only proceeds on a 200 response, and there a page without any
structured-data block yields an empty title document written without
an exception rather than a failure. -/
theorem c3_amended :
    (∀ (env : Env) (a : GenArgs) (fs : FS),
      env.titleStatus ≠ 200 →
      (a.overwrite = true ∨ get_nfo_file fs env.path env.base = none) →
      generate_imdb env a fs =
        .ok (false, fs, [.httpGet (titleUrl a.tid), .logCritical])) ∧
    (∀ (env : Env) (a : GenArgs) (fs : FS),
      env.titleStatus = 200 → env.titleBlocks = [] →
      a.dry_run = false → a.multi_episodes = false →
      get_nfo_file fs env.path env.base = none →
      generate_imdb env a fs =
        .ok (true,
          fsWrite fs (env.path ++ "/" ++ env.base ++ ".nfo") (prettyXml []),
          [.httpGet (titleUrl a.tid), .parsePage])) := by
  constructor
  · intro env a fs hst hskip
    rcases hskip with h | h
    · simp [generate_imdb, h, hst, titleUrl]
    · simp [generate_imdb, h, hst, titleUrl]
  · intro env a fs hst hblocks hdry hmulti hnfo
    have hnx : pathExists fs (env.path ++ "/" ++ env.base ++ ".nfo") = false := by
      by_contra hc
      simp only [Bool.not_eq_false] at hc
      simp [get_nfo_file, hc] at hnfo
    simp [generate_imdb, hnfo, hst, hblocks, titleUrl, output_xml, hdry,
      hmulti, hnx, List.foldlM, pure, Except.pure]

/-- Witness for C3 amended: the failing-status part at a concrete
environment and the empty-page part at the baseline environment. -/
theorem c3_witness :
    generate_imdb { envBase with titleStatus := 404 } { tid := "tt1234567" } [] =
      .ok (false, [],
        [.httpGet (titleUrl "tt1234567"), .logCritical]) ∧
    generate_imdb envBase { tid := "tt1234567" } [] =
      .ok (true,
        fsWrite [] ("/m/Movie (2020)" ++ "/" ++ "Movie (2020)" ++ ".nfo")
          (prettyXml []),
        [.httpGet (titleUrl "tt1234567"), .parsePage]) :=
  ⟨c3_amended.1 { envBase with titleStatus := 404 } { tid := "tt1234567" } []
      (by decide) (Or.inr rfl),
   c3_amended.2 envBase { tid := "tt1234567" } [] rfl rfl rfl rfl rfl⟩

/-! ## Lemmas for the multi-episode concatenation -/

/-- The head of an append with a nonempty left part. -/
theorem headD_append_left (acc t : List String) (d : String) (h : acc ≠ []) :
    (acc ++ t).headD d = acc.headD d := by
  cases acc with
  | nil => exact absurd rfl h
  | cons a as => rfl

/-- One appendFragment step preserves the single-prolog invariant when
the incoming fragment starts with its only prolog line. -/
theorem appendFragment_inv (acc : List String) (g : String)
    (hne : acc ≠ [])
    (hcnt : acc.countP (fun l => strIn "<?xml" l) = 1)
    (hhd : strIn "<?xml" (acc.headD "") = true)
    (ghd : strIn "<?xml" ((fragLines g).headD "") = true)
    (gcnt : (fragLines g).countP (fun l => strIn "<?xml" l) = 1) :
    appendFragment acc g ≠ [] ∧
    (appendFragment acc g).countP (fun l => strIn "<?xml" l) = 1 ∧
    strIn "<?xml" ((appendFragment acc g).headD "") = true := by
  have hlen : decide (0 < acc.length) = true := by
    cases acc with
    | nil => exact absurd rfl hne
    | cons a as => simp
  obtain ⟨h, t, hg⟩ : ∃ h t, fragLines g = h :: t := by
    cases hfl : fragLines g with
    | nil =>
      rw [hfl] at ghd
      simp [strIn, occursIn, leadsWith] at ghd
    | cons h t => exact ⟨h, t, rfl⟩
  have hgate : appendFragment acc g = acc ++ t := by
    rw [appendFragment, hg]
    rw [hg] at ghd
    simp only [List.headD_cons] at ghd
    simp [hlen, ghd]
  have htcnt : t.countP (fun l => strIn "<?xml" l) = 0 := by
    rw [hg] at gcnt
    rw [List.countP_cons] at gcnt
    rw [hg] at ghd
    simp only [List.headD_cons] at ghd
    simp [ghd] at gcnt
    simpa using List.countP_eq_zero.mpr (by simpa using gcnt)
  refine ⟨?_, ?_, ?_⟩
  · rw [hgate]
    cases acc with
    | nil => exact absurd rfl hne
    | cons a as => simp
  · rw [hgate, List.countP_append, hcnt, htcnt]
  · rw [hgate, headD_append_left _ _ _ hne]
    exact hhd

/-- Folding further fragments that each start with their only prolog
line preserves the single-prolog invariant. -/
theorem multiFold_inv (rest : List String) :
    ∀ acc : List String, acc ≠ [] →
    acc.countP (fun l => strIn "<?xml" l) = 1 →
    strIn "<?xml" (acc.headD "") = true →
    (∀ f ∈ rest, strIn "<?xml" ((fragLines f).headD "") = true ∧
      (fragLines f).countP (fun l => strIn "<?xml" l) = 1) →
    (rest.foldl appendFragment acc) ≠ [] ∧
    (rest.foldl appendFragment acc).countP (fun l => strIn "<?xml" l) = 1 ∧
    strIn "<?xml" ((rest.foldl appendFragment acc).headD "") = true := by
  induction rest with
  | nil => intro acc h1 h2 h3 _; exact ⟨h1, h2, h3⟩
  | cons g rest ih =>
    intro acc h1 h2 h3 hall
    have hg := hall g (by simp)
    have step := appendFragment_inv acc g h1 h2 h3 hg.1 hg.2
    simpa using ih (appendFragment acc g) step.1 step.2.1 step.2.2
      (fun f hf => hall f (by simp [hf]))

/-- C6: when every episode fragment handed to the multi-episode
concatenation starts with a line carrying the XML prolog and contains
no other prolog line, the concatenated line list contains exactly one
prolog line and it is the first line: the prolog is stripped from
every fragment after the first and the fragments are joined by
newlines into multiEpisodeDoc. -/
theorem c6_multi_episode_concat (frags : List String) (hne : frags ≠ [])
    (hfr : ∀ f ∈ frags, strIn "<?xml" ((fragLines f).headD "") = true ∧
      (fragLines f).countP (fun l => strIn "<?xml" l) = 1) :
    (multiEpisodeLines frags).countP (fun l => strIn "<?xml" l) = 1 ∧
    strIn "<?xml" ((multiEpisodeLines frags).headD "") = true ∧
    multiEpisodeDoc frags = String.intercalate "\n" (multiEpisodeLines frags) := by
  cases frags with
  | nil => exact absurd rfl hne
  | cons f rest =>
    have hf := hfr f (by simp)
    have hfirst : appendFragment [] f = fragLines f := by
      simp [appendFragment]
    have hflne : fragLines f ≠ [] := by
      intro hc
      rw [hc] at hf
      simp [strIn, occursIn, leadsWith] at hf
    have base := multiFold_inv rest (fragLines f) hflne hf.2 hf.1
      (fun g hg => hfr g (by simp [hg]))
    have : multiEpisodeLines (f :: rest) = rest.foldl appendFragment (fragLines f) := by
      simp [multiEpisodeLines, hfirst]
    rw [this]
    exact ⟨(base).2.1, (base).2.2, rfl⟩

/-- Witness for C6: two concrete pretty-printed fragments, each led by
the prolog; the concatenation keeps exactly one prolog line, first. -/
theorem c6_witness :
    (multiEpisodeLines
      ["<?xml version=\"1.0\" ?>\n<episodedetails>\n  <season>1</season>\n</episodedetails>\n",
       "<?xml version=\"1.0\" ?>\n<episodedetails>\n  <season>2</season>\n</episodedetails>\n"]).countP
        (fun l => strIn "<?xml" l) = 1 ∧
    strIn "<?xml"
      ((multiEpisodeLines
        ["<?xml version=\"1.0\" ?>\n<episodedetails>\n  <season>1</season>\n</episodedetails>\n",
         "<?xml version=\"1.0\" ?>\n<episodedetails>\n  <season>2</season>\n</episodedetails>\n"]).headD "") = true := by
  have h := c6_multi_episode_concat
    ["<?xml version=\"1.0\" ?>\n<episodedetails>\n  <season>1</season>\n</episodedetails>\n",
     "<?xml version=\"1.0\" ?>\n<episodedetails>\n  <season>2</season>\n</episodedetails>\n"]
    (by decide)
    (by decide)
  exact ⟨h.1, h.2.1⟩

/-! ## Lemmas on decimal rendering and parsing -/

theorem natDigitsAux_eq (fuel : Nat) :
    ∀ n, n ≤ fuel → natDigitsAux fuel n = Nat.digits 10 n := by
  induction fuel with
  | zero =>
    intro n hn
    have : n = 0 := by omega
    subst this
    simp [natDigitsAux]
  | succ fuel ih =>
    intro n hn
    match n with
    | 0 => simp [natDigitsAux]
    | m + 1 =>
      rw [natDigitsAux, Nat.digits_def' (by norm_num : (1 : Nat) < 10)
        (Nat.succ_pos m)]
      congr 1
      exact ih ((m + 1) / 10)
        (by
          have := Nat.div_lt_self (Nat.succ_pos m) (by norm_num : (1 : Nat) < 10)
          omega)

theorem natDigits_eq (n : Nat) : natDigits n = Nat.digits 10 n :=
  natDigitsAux_eq n n le_rfl

theorem digitChar_isDigit {d : Nat} (h : d < 10) : (digitChar d).isDigit = true := by
  interval_cases d <;> decide

theorem charDigit_digitChar {d : Nat} (h : d < 10) : charDigit (digitChar d) = d := by
  interval_cases d <;> decide

theorem isDigit_ne_space {c : Char} (h : c.isDigit = true) : c ≠ ' ' := by
  intro hc
  subst hc
  exact absurd h (by decide)

theorem natVal_rev_map (l : List Nat) (h : ∀ d ∈ l, d < 10) :
    natValOfDigits ((l.map digitChar).reverse) = Nat.ofDigits 10 l := by
  induction l with
  | nil => simp [natValOfDigits]
  | cons d l ih =>
    have hd : d < 10 := h d (by simp)
    have hl : ∀ e ∈ l, e < 10 := fun e he => h e (by simp [he])
    simp only [List.map_cons, List.reverse_cons]
    unfold natValOfDigits at ih ⊢
    rw [List.foldl_append]
    simp only [List.foldl_cons, List.foldl_nil]
    rw [ih hl, charDigit_digitChar hd, Nat.ofDigits_cons]
    omega

theorem natToStr_data (n : Nat) (h : n ≠ 0) :
    (natToStr n).data = ((Nat.digits 10 n).map digitChar).reverse := by
  simp [natToStr, h, natDigits_eq]

theorem natToStr_all_digit (n : Nat) :
    ∀ c ∈ (natToStr n).data, c.isDigit = true := by
  by_cases h : n = 0
  · subst h
    intro c hc
    simp [natToStr] at hc
    subst hc
    decide
  · rw [natToStr_data n h]
    intro c hc
    rw [List.mem_reverse, List.mem_map] at hc
    obtain ⟨d, hd, rfl⟩ := hc
    exact digitChar_isDigit (Nat.digits_lt_base (by norm_num) hd)

theorem natToStr_no_space (n : Nat) : ∀ c ∈ (natToStr n).data, c ≠ ' ' :=
  fun c hc => isDigit_ne_space (natToStr_all_digit n c hc)

theorem natVal_natToStr (n : Nat) : natValOfDigits (natToStr n).data = n := by
  by_cases h : n = 0
  · subst h
    decide
  · rw [natToStr_data n h,
      natVal_rev_map _ (fun d hd => Nat.digits_lt_base (by norm_num) hd),
      Nat.ofDigits_digits]

theorem digits10_len_eq (n k : Nat) (h1 : 10 ^ k ≤ n) (h2 : n < 10 ^ (k + 1)) :
    (Nat.digits 10 n).length = k + 1 := by
  have hp : 0 < 10 ^ k := Nat.pos_pow_of_pos k (by norm_num)
  have hn : n ≠ 0 := by omega
  rw [Nat.digits_len 10 n (by norm_num) hn,
    Nat.log_eq_of_pow_le_of_lt_pow h1 h2]

theorem natToStr_len (n k : Nat) (h1 : 10 ^ k ≤ n) (h2 : n < 10 ^ (k + 1)) :
    (natToStr n).data.length = k + 1 := by
  have hp : 0 < 10 ^ k := Nat.pos_pow_of_pos k (by norm_num)
  have hn : n ≠ 0 := by omega
  rw [natToStr_data n hn]
  simp [digits10_len_eq n k h1 h2]

theorem parseDay_natToStr (d : Nat) (h1 : 1 ≤ d) (h2 : d ≤ 31) :
    parseDay (natToStr d).data = some d := by
  have hall : (natToStr d).data.all Char.isDigit = true :=
    List.all_eq_true.mpr (natToStr_all_digit d)
  have hlen : (natToStr d).data.length = 1 ∨ (natToStr d).data.length = 2 := by
    by_cases hd10 : d < 10
    · left
      exact natToStr_len d 0 (by simpa using h1) (by simpa using hd10)
    · right
      exact natToStr_len d 1 (by simpa using hd10) (by norm_num; omega)
  unfold parseDay
  rw [natVal_natToStr]
  simp only [hall, and_true]
  rw [if_pos hlen, if_pos ⟨h1, h2⟩]

theorem parseYear_natToStr (y : Nat) (h1 : 1000 ≤ y) (h2 : y ≤ 9999) :
    parseYear (natToStr y).data = some y := by
  have hall : (natToStr y).data.all Char.isDigit = true :=
    List.all_eq_true.mpr (natToStr_all_digit y)
  have hlen : (natToStr y).data.length = 4 := by
    have := natToStr_len y 3 (by norm_num; omega) (by norm_num; omega)
    omega
  unfold parseYear
  rw [natVal_natToStr]
  simp [hall, hlen]

theorem natToStr_ne_nil (n : Nat) : (natToStr n).data ≠ [] := by
  by_cases h : n = 0
  · subst h
    decide
  · rw [natToStr_data n h]
    simp [Nat.digits_ne_nil_iff_ne_zero.mpr h]

theorem natToStr_no_pyspace (n : Nat) :
    ∀ c ∈ (natToStr n).data, isPySpace c = false := by
  by_cases h : n = 0
  · subst h
    intro c hc
    simp [natToStr] at hc
    subst hc
    decide
  · rw [natToStr_data n h]
    intro c hc
    rw [List.mem_reverse, List.mem_map] at hc
    obtain ⟨dd, hdd, rfl⟩ := hc
    have hlt : dd < 10 := Nat.digits_lt_base (by norm_num) hdd
    interval_cases dd <;> decide

theorem headIsWs_false_of_all (l : List Char)
    (h : ∀ c ∈ l, isPySpace c = false) : headIsWs l = false := by
  cases l with
  | nil => rfl
  | cons c r => exact h c (by simp)

theorem lastIsWs_false_of_all (l : List Char)
    (h : ∀ c ∈ l, isPySpace c = false) : lastIsWs l = false :=
  headIsWs_false_of_all l.reverse (fun c hc => h c (List.mem_reverse.mp hc))

theorem headIsWs_append_left (a b : List Char) (ha : a ≠ []) :
    headIsWs (a ++ b) = headIsWs a := by
  cases a with
  | nil => exact absurd rfl ha
  | cons c r => rfl

theorem lastIsWs_append_right (a b : List Char) (hb : b ≠ []) :
    lastIsWs (a ++ b) = lastIsWs b := by
  unfold lastIsWs
  rw [List.reverse_append]
  exact headIsWs_append_left _ _ (by simpa using hb)

theorem wsTokensAux_all_nonws (a : List Char) :
    ∀ cur, (∀ c ∈ a, isPySpace c = false) → (cur ≠ [] ∨ a ≠ []) →
      wsTokensAux a cur = [cur.reverse ++ a] := by
  induction a with
  | nil =>
    intro cur hall hne
    have hcur : cur ≠ [] := by
      rcases hne with h | h
      · exact h
      · exact absurd rfl h
    have hemp : cur.isEmpty = false := by
      cases cur with
      | nil => exact absurd rfl hcur
      | cons c r => rfl
    simp [wsTokensAux, hemp]
  | cons c a2 ih =>
    intro cur hall hne
    have hc : isPySpace c = false := hall c (by simp)
    rw [wsTokensAux, if_neg (by simp [hc]),
      ih (c :: cur) (fun x hx => hall x (by simp [hx])) (Or.inl (by simp))]
    simp

theorem wsTokensAux_sep (b : List Char) (sep : Char)
    (hsep : isPySpace sep = true) (a : List Char) :
    ∀ cur, (∀ c ∈ a, isPySpace c = false) → (cur ≠ [] ∨ a ≠ []) →
      wsTokensAux (a ++ sep :: b) cur = (cur.reverse ++ a) :: wsTokensAux b [] := by
  induction a with
  | nil =>
    intro cur hall hne
    have hcur : cur ≠ [] := by
      rcases hne with h | h
      · exact h
      · exact absurd rfl h
    have hemp : cur.isEmpty = false := by
      cases cur with
      | nil => exact absurd rfl hcur
      | cons c r => rfl
    simp [wsTokensAux, hsep, hemp]
  | cons c a2 ih =>
    intro cur hall hne
    have hc : isPySpace c = false := hall c (by simp)
    rw [List.cons_append, wsTokensAux, if_neg (by simp [hc]),
      ih (c :: cur) (fun x hx => hall x (by simp [hx])) (Or.inl (by simp))]
    simp

theorem wsTokens_three (t1 t2 t3 : List Char)
    (h1 : t1 ≠ []) (h2 : t2 ≠ []) (h3 : t3 ≠ [])
    (n1 : ∀ c ∈ t1, isPySpace c = false)
    (n2 : ∀ c ∈ t2, isPySpace c = false)
    (n3 : ∀ c ∈ t3, isPySpace c = false) :
    wsTokens (t1 ++ ' ' :: (t2 ++ ' ' :: t3)) = [t1, t2, t3] := by
  unfold wsTokens
  rw [wsTokensAux_sep _ ' ' (by decide) t1 [] n1 (Or.inr h1),
    wsTokensAux_sep _ ' ' (by decide) t2 [] n2 (Or.inr h2),
    wsTokensAux_all_nonws t3 [] n3 (Or.inr h3)]
  simp

theorem strptimeDMY_render (table : List String) (d y : Nat) (mtok : List Char)
    (hms : ∀ c ∈ mtok, isPySpace c = false) (hmne : mtok ≠ [])
    (hd1 : 1 ≤ d) (hd31 : d ≤ 31) (hy1 : 1000 ≤ y) (hy2 : y ≤ 9999) :
    strptimeDMY table (natToStr d ++ " " ++ String.mk mtok ++ " " ++ natToStr y) =
      (match monthOfToken table mtok with
       | some m => if 1 ≤ y ∧ d ≤ daysInMonth m y then some (y, m, d) else none
       | none => none) := by
  have hdata : (natToStr d ++ " " ++ String.mk mtok ++ " " ++ natToStr y).data
      = (natToStr d).data ++ ' ' :: (mtok ++ ' ' :: (natToStr y).data) := by
    simp [String.data_append]
  have hh : headIsWs ((natToStr d).data ++ ' ' :: (mtok ++ ' ' :: (natToStr y).data))
      = false := by
    rw [headIsWs_append_left _ _ (natToStr_ne_nil d)]
    exact headIsWs_false_of_all _ (natToStr_no_pyspace d)
  have hl : lastIsWs ((natToStr d).data ++ ' ' :: (mtok ++ ' ' :: (natToStr y).data))
      = false := by
    rw [lastIsWs_append_right _ _ (by simp),
      show (' ' :: (mtok ++ ' ' :: (natToStr y).data))
        = [' '] ++ (mtok ++ ' ' :: (natToStr y).data) from rfl,
      lastIsWs_append_right _ _ (by simp),
      lastIsWs_append_right mtok _ (by simp),
      show (' ' :: (natToStr y).data) = [' '] ++ (natToStr y).data from rfl,
      lastIsWs_append_right _ _ (natToStr_ne_nil y)]
    exact lastIsWs_false_of_all _ (natToStr_no_pyspace y)
  have htok : wsTokens ((natToStr d).data ++ ' ' :: (mtok ++ ' ' :: (natToStr y).data))
      = [(natToStr d).data, mtok, (natToStr y).data] :=
    wsTokens_three _ _ _ (natToStr_ne_nil d) hmne (natToStr_ne_nil y)
      (natToStr_no_pyspace d) hms (natToStr_no_pyspace y)
  unfold strptimeDMY
  rw [hdata, if_pos ⟨hh, hl⟩, htok]
  cases hmt : monthOfToken table mtok <;>
    simp [hmt, parseDay_natToStr d hd1 hd31, parseYear_natToStr y hy1 hy2]

theorem monthTables_wsfree : ∀ i < 12,
    ((monthAbbrs.getD i "").data ≠ [] ∧
      ∀ x ∈ (monthAbbrs.getD i "").data, isPySpace x = false) ∧
    ((monthFulls.getD i "").data ≠ [] ∧
      ∀ x ∈ (monthFulls.getD i "").data, isPySpace x = false) := by
  decide

theorem token_no_pyspace (m : Nat) (mtok : List Char) (table : List String)
    (h1 : 1 ≤ m) (h2 : m ≤ 12) (htab : table = monthAbbrs ∨ table = monthFulls)
    (ht : lowerAscii mtok = (table.getD (m - 1) "").data) :
    ∀ c ∈ mtok, isPySpace c = false := by
  intro c hc
  by_contra hws
  simp only [Bool.not_eq_false] at hws
  have hno : ¬(65 ≤ c.toNat ∧ c.toNat ≤ 90) := by
    have hdis := of_decide_eq_true hws
    omega
  have hmem : c ∈ lowerAscii mtok :=
    List.mem_map.mpr ⟨c, hc, by rw [if_neg hno]⟩
  rw [ht] at hmem
  have hi : m - 1 < 12 := by omega
  rcases htab with h | h
  · subst h
    exact absurd ((monthTables_wsfree (m - 1) hi).1.2 c hmem) (by simp [hws])
  · subst h
    exact absurd ((monthTables_wsfree (m - 1) hi).2.2 c hmem) (by simp [hws])

theorem token_ne_nil (m : Nat) (mtok : List Char) (table : List String)
    (h1 : 1 ≤ m) (h2 : m ≤ 12) (htab : table = monthAbbrs ∨ table = monthFulls)
    (ht : lowerAscii mtok = (table.getD (m - 1) "").data) :
    mtok ≠ [] := by
  intro hc
  rw [hc] at ht
  have hi : m - 1 < 12 := by omega
  have hemp : (table.getD (m - 1) "").data = [] := by
    rw [← ht]
    rfl
  rcases htab with h | h
  · subst h
    exact (monthTables_wsfree (m - 1) hi).1.1 hemp
  · subst h
    exact (monthTables_wsfree (m - 1) hi).2.1 hemp

theorem monthOfToken_same (m : Nat) (mtok : List Char) (table : List String)
    (h1 : 1 ≤ m) (h2 : m ≤ 12) (htab : table = monthAbbrs ∨ table = monthFulls)
    (ht : lowerAscii mtok = (table.getD (m - 1) "").data) :
    monthOfToken table mtok = some m := by
  unfold monthOfToken
  rw [ht]
  rcases htab with h | h <;> subst h <;> interval_cases m <;> decide

theorem monthOfToken_abbr_of_full (m : Nat) (mtok : List Char)
    (h1 : 1 ≤ m) (h2 : m ≤ 12)
    (ht : lowerAscii mtok = (monthFulls.getD (m - 1) "").data) :
    monthOfToken monthAbbrs mtok = if m = 5 then some 5 else none := by
  unfold monthOfToken
  rw [ht]
  interval_cases m <;> decide

theorem daysInMonth_le_31 (m y : Nat) : daysInMonth m y ≤ 31 := by
  unfold daysInMonth
  split
  · split <;> omega
  · split <;> omega

/-- C8: for every valid calendar date, the string day month-name year
(month abbreviated, in any letter case) parses through _parse_date to
the zero-padded ISO form, and likewise with the full month name; a
string that neither strptime form accepts yields None, and
generate_omdb then omits the premiered element. -/
theorem c8_parse_date :
    (∀ d m y (mtok : List Char),
      1 ≤ m → m ≤ 12 → 1 ≤ d → d ≤ daysInMonth m y → 1000 ≤ y → y ≤ 9999 →
      lowerAscii mtok = (monthAbbrs.getD (m - 1) "").data →
      parse_date (natToStr d ++ " " ++ String.mk mtok ++ " " ++ natToStr y)
        = some (isoDate y m d)) ∧
    (∀ d m y (mtok : List Char),
      1 ≤ m → m ≤ 12 → 1 ≤ d → d ≤ daysInMonth m y → 1000 ≤ y → y ≤ 9999 →
      lowerAscii mtok = (monthFulls.getD (m - 1) "").data →
      parse_date (natToStr d ++ " " ++ String.mk mtok ++ " " ++ natToStr y)
        = some (isoDate y m d)) ∧
    (∀ s, strptimeDMY monthAbbrs s = none → strptimeDMY monthFulls s = none →
      parse_date s = none ∧ premieredNodes (some s) = []) := by
  refine ⟨?_, ?_, ?_⟩
  · intro d m y mtok hm1 hm2 hd1 hdv hy1 hy2 ht
    have hms := token_no_pyspace m mtok monthAbbrs hm1 hm2 (Or.inl rfl) ht
    have hmne := token_ne_nil m mtok monthAbbrs hm1 hm2 (Or.inl rfl) ht
    have hd31 : d ≤ 31 := le_trans hdv (daysInMonth_le_31 m y)
    have hcond : 1 ≤ y ∧ d ≤ daysInMonth m y := ⟨by omega, hdv⟩
    have habbr0 := strptimeDMY_render monthAbbrs d y mtok hms hmne hd1 hd31 hy1 hy2
    rw [monthOfToken_same m mtok monthAbbrs hm1 hm2 (Or.inl rfl) ht] at habbr0
    have habbr : strptimeDMY monthAbbrs
        (natToStr d ++ " " ++ String.mk mtok ++ " " ++ natToStr y)
        = if 1 ≤ y ∧ d ≤ daysInMonth m y then some (y, m, d) else none := habbr0
    rw [if_pos hcond] at habbr
    unfold parse_date
    rw [habbr]
  · intro d m y mtok hm1 hm2 hd1 hdv hy1 hy2 ht
    have hms := token_no_pyspace m mtok monthFulls hm1 hm2 (Or.inr rfl) ht
    have hmne := token_ne_nil m mtok monthFulls hm1 hm2 (Or.inr rfl) ht
    have hd31 : d ≤ 31 := le_trans hdv (daysInMonth_le_31 m y)
    have hcond : 1 ≤ y ∧ d ≤ daysInMonth m y := ⟨by omega, hdv⟩
    have habbr0 := strptimeDMY_render monthAbbrs d y mtok hms hmne hd1 hd31 hy1 hy2
    have hfull0 := strptimeDMY_render monthFulls d y mtok hms hmne hd1 hd31 hy1 hy2
    rw [monthOfToken_same m mtok monthFulls hm1 hm2 (Or.inr rfl) ht] at hfull0
    have hfull : strptimeDMY monthFulls
        (natToStr d ++ " " ++ String.mk mtok ++ " " ++ natToStr y)
        = if 1 ≤ y ∧ d ≤ daysInMonth m y then some (y, m, d) else none := hfull0
    rw [if_pos hcond] at hfull
    rw [monthOfToken_abbr_of_full m mtok hm1 hm2 ht] at habbr0
    by_cases h5 : m = 5
    · subst h5
      have habbr : strptimeDMY monthAbbrs
          (natToStr d ++ " " ++ String.mk mtok ++ " " ++ natToStr y)
          = if 1 ≤ y ∧ d ≤ daysInMonth 5 y then some (y, 5, d) else none := by
        rw [habbr0, if_pos rfl]
      rw [if_pos hcond] at habbr
      unfold parse_date
      rw [habbr]
    · have habbr : strptimeDMY monthAbbrs
          (natToStr d ++ " " ++ String.mk mtok ++ " " ++ natToStr y) = none := by
        rw [habbr0, if_neg h5]
      unfold parse_date
      rw [habbr, hfull]
  · intro s h1 h2
    have hpd : parse_date s = none := by
      unfold parse_date
      rw [h1, h2]
    exact ⟨hpd, by simp [premieredNodes, hpd]⟩

/-- Witness for C8: the spec's example date in abbreviated and full
month form, plus an unparseable string that drops premiered. -/
theorem c8_witness :
    parse_date ("17" ++ " " ++ String.mk ['M', 'a', 'y'] ++ " " ++ "2019")
      = some (isoDate 2019 5 17) ∧
    parse_date ("17" ++ " " ++ String.mk ['J', 'a', 'n', 'u', 'a', 'r', 'y'] ++ " " ++ "2019")
      = some (isoDate 2019 1 17) ∧
    parse_date "2019-05-17" = none ∧ premieredNodes (some "2019-05-17") = [] := by
  have h1 := c8_parse_date.1 17 5 2019 ['M', 'a', 'y']
    (by norm_num) (by norm_num) (by norm_num) (by decide) (by norm_num)
    (by norm_num) (by decide)
  have h2 := c8_parse_date.2.1 17 1 2019 ['J', 'a', 'n', 'u', 'a', 'r', 'y']
    (by norm_num) (by norm_num) (by norm_num) (by decide) (by norm_num)
    (by norm_num) (by decide)
  have h3 := c8_parse_date.2.2 "2019-05-17" (by decide) (by decide)
  refine ⟨?_, ?_, h3.1, h3.2⟩
  · have : ("17" : String) = natToStr 17 := by decide
    rw [this]
    have : ("2019" : String) = natToStr 2019 := by decide
    rw [this]
    exact h1
  · have : ("17" : String) = natToStr 17 := by decide
    rw [this]
    have : ("2019" : String) = natToStr 2019 := by decide
    rw [this]
    exact h2

/-! ## Lemmas on the Season/Episode Map construction -/

theorem strBeq_false_of_ne {s t : String} (h : s ≠ t) : (s == t) = false := by
  cases hb : s == t with
  | true => exact absurd (eq_of_beq hb) h
  | false => rfl

theorem extract_shape (sg eg : Re) (f s e : String)
    (h : extract_season_episode sg eg f = .ok (some (s, e))) :
    (∃ z : Int, s = pyStrOfInt z) ∧ ∃ z : Int, e = pyStrOfInt z := by
  unfold extract_season_episode at h
  split at h <;> try simp at h
  split at h <;> try simp at h
  split at h <;> try simp at h
  split at h <;> try simp at h
  rename_i zs ze _ _
  exact ⟨⟨zs, h.1.symm⟩, ⟨ze, h.2.symm⟩⟩

theorem keyIn_iff (m : List (String × List String)) (s e : String) :
    keyIn m s e = true ↔ ∃ es, m.lookup s = some es ∧ e ∈ es := by
  unfold keyIn
  cases h : m.lookup s <;> simp [h]

theorem lookup_seMapInsert (m : List (String × List String)) (s2 e2 s : String) :
    (seMapInsert m s2 e2).lookup s =
      if s = s2 then
        some (match m.lookup s2 with
              | some es => if e2 ∈ es then es else es ++ [e2]
              | none => [e2])
      else m.lookup s := by
  induction m with
  | nil =>
    by_cases hs : s = s2
    · subst hs
      simp [seMapInsert, List.lookup]
    · simp [seMapInsert, List.lookup, hs, strBeq_false_of_ne hs]
  | cons p rest ih =>
    obtain ⟨s3, es⟩ := p
    by_cases h32 : s3 = s2
    · subst h32
      by_cases hs : s = s3
      · subst hs
        simp [seMapInsert, List.lookup]
      · simp [seMapInsert, List.lookup, hs, strBeq_false_of_ne hs]
    · have hbeq23 : (s2 == s3) = false :=
        strBeq_false_of_ne (fun hc => h32 hc.symm)
      by_cases hs : s = s3
      · have hbeq : (s == s3) = true := by
          rw [hs]
          exact beq_self_eq_true s3
        have hs2 : s ≠ s2 := by
          rw [hs]
          exact fun hc => h32 hc
        simp [seMapInsert, h32, List.lookup, hbeq, hbeq23, hs2]
      · simp [seMapInsert, h32, List.lookup, strBeq_false_of_ne hs, hbeq23, ih]

theorem keyIn_seMapInsert_self (m : List (String × List String)) (s e : String) :
    keyIn (seMapInsert m s e) s e = true := by
  rw [keyIn_iff, lookup_seMapInsert, if_pos rfl]
  refine ⟨_, rfl, ?_⟩
  cases h : m.lookup s with
  | none => simp
  | some es =>
    by_cases he : e ∈ es <;> simp [he]

theorem keyIn_seMapInsert_mono (m : List (String × List String))
    (s e s2 e2 : String) (h : keyIn m s e = true) :
    keyIn (seMapInsert m s2 e2) s e = true := by
  rw [keyIn_iff] at h
  obtain ⟨es, hl, he⟩ := h
  rw [keyIn_iff, lookup_seMapInsert]
  by_cases hs : s = s2
  · subst hs
    rw [if_pos rfl, hl]
    refine ⟨_, rfl, ?_⟩
    by_cases h2 : e2 ∈ es <;> simp [h2, he]
  · rw [if_neg hs]
    exact ⟨es, hl, he⟩

/-- The members of an updated season map: each entry either comes from
the old map with the same key and either the unchanged or the extended
episode list (extension only when the new episode was absent), or it is
the freshly appended entry. -/
theorem mem_seMapInsert (m : List (String × List String)) (s e : String)
    (p : String × List String) (hp : p ∈ seMapInsert m s e) :
    (∃ q ∈ m, p.1 = q.1 ∧ (p.2 = q.2 ∨ (e ∉ q.2 ∧ p.2 = q.2 ++ [e]))) ∨
      p = (s, [e]) := by
  induction m with
  | nil =>
    simp [seMapInsert] at hp
    exact Or.inr hp
  | cons q rest ih =>
    obtain ⟨s3, es⟩ := q
    by_cases h3 : s3 = s
    · subst h3
      simp only [seMapInsert, if_pos rfl] at hp
      rcases List.mem_cons.mp hp with h | h
      · by_cases he : e ∈ es
        · rw [if_pos he] at h
          exact Or.inl ⟨(s3, es), by simp, by simp [h]⟩
        · rw [if_neg he] at h
          exact Or.inl ⟨(s3, es), by simp, by simp [h, he]⟩
      · exact Or.inl ⟨p, by simp [h], rfl, Or.inl rfl⟩
    · simp only [seMapInsert, if_neg h3] at hp
      rcases List.mem_cons.mp hp with h | h
      · exact Or.inl ⟨(s3, es), by simp, by simp [h]⟩
      · rcases ih h with ⟨q, hq, hfst, hsnd⟩ | hnew
        · exact Or.inl ⟨q, by simp [hq], hfst, hsnd⟩
        · exact Or.inr hnew

theorem digitChar_eq_zero_iff {d : Nat} (h : d < 10) :
    digitChar d = '0' ↔ d = 0 := by
  interval_cases d <;> simp <;> decide

theorem natToStr_head (n : Nat) (h : n ≠ 0) :
    (natToStr n).data.head? =
      some (digitChar ((Nat.digits 10 n).getLast
        (Nat.digits_ne_nil_iff_ne_zero.mpr h))) := by
  rw [natToStr_data n h, List.head?_reverse, List.getLast?_map,
    List.getLast?_eq_getLast_of_ne_nil (Nat.digits_ne_nil_iff_ne_zero.mpr h)]
  rfl

theorem natToStr_head_ne_zero (n : Nat) (h : n ≠ 0) :
    ∀ c, (natToStr n).data.head? = some c → c ≠ '0' := by
  intro c hc
  rw [natToStr_head n h] at hc
  have hlast := Nat.getLast_digit_ne_zero 10 h
  have hmem : (Nat.digits 10 n).getLast
      (Nat.digits_ne_nil_iff_ne_zero.mpr h) ∈ Nat.digits 10 n :=
    List.getLast_mem _
  have hlt : (Nat.digits 10 n).getLast
      (Nat.digits_ne_nil_iff_ne_zero.mpr h) < 10 :=
    Nat.digits_lt_base (by norm_num) hmem
  have := (Option.some.inj hc).symm
  subst this
  intro hzero
  exact hlast ((digitChar_eq_zero_iff hlt).mp hzero)

theorem isDigit_ne_dash {c : Char} (h : c.isDigit = true) : c ≠ '-' := by
  intro hc
  subst hc
  exact absurd h (by decide)

theorem pyStrOfInt_canon (z : Int) : isCanonIntStr (pyStrOfInt z) = true := by
  by_cases hz : z < 0
  · have hn : z.natAbs ≠ 0 := Int.natAbs_ne_zero.mpr (by omega)
    obtain ⟨c, rest, hcr⟩ : ∃ c rest, (natToStr z.natAbs).data = c :: rest := by
      cases hd : (natToStr z.natAbs).data with
      | nil => exact absurd hd (natToStr_ne_nil _)
      | cons c rest => exact ⟨c, rest, rfl⟩
    have hdat : (pyStrOfInt z).data = '-' :: c :: rest := by
      unfold pyStrOfInt
      rw [if_pos hz, String.data_append, ← hcr]
      rfl
    have hall : ((c :: rest).all Char.isDigit) = true := by
      rw [← hcr]
      exact List.all_eq_true.mpr (natToStr_all_digit _)
    have hc0 : c ≠ '0' := by
      apply natToStr_head_ne_zero z.natAbs hn
      rw [hcr]
      rfl
    unfold isCanonIntStr
    rw [hdat]
    simp [hall, hc0]
  · by_cases hn : z.natAbs = 0
    · unfold pyStrOfInt
      rw [if_neg hz, hn]
      decide
    · obtain ⟨c, rest, hcr⟩ : ∃ c rest, (natToStr z.natAbs).data = c :: rest := by
        cases hd : (natToStr z.natAbs).data with
        | nil => exact absurd hd (natToStr_ne_nil _)
        | cons c rest => exact ⟨c, rest, rfl⟩
      have hdat : (pyStrOfInt z).data = c :: rest := by
        unfold pyStrOfInt
        rw [if_neg hz]
        exact hcr
      have hall : ((c :: rest).all Char.isDigit) = true := by
        rw [← hcr]
        exact List.all_eq_true.mpr (natToStr_all_digit _)
      have hcd : c.isDigit = true := by
        have := List.all_eq_true.mp hall c (by simp)
        simpa using this
      have hdash : ¬(c = '-') := isDigit_ne_dash hcd
      have hc0 : c ≠ '0' := by
        apply natToStr_head_ne_zero z.natAbs hn
        rw [hcr]
        rfl
      unfold isCanonIntStr
      rw [hdat]
      simp [hall, hdash, hc0]

/-! ## Fold lemmas for determine_episodes -/

theorem procEpisodeFile_cases (sg eg : Re) (m m1 : List (String × List String))
    (f : String) (hp : procEpisodeFile sg eg m f = .ok m1) :
    m1 = m ∨ ∃ s e, extract_season_episode sg eg f = .ok (some (s, e)) ∧
      m1 = seMapInsert m s e := by
  unfold procEpisodeFile at hp
  split at hp
  · exact absurd hp (by simp)
  · exact Or.inl (Except.ok.inj hp).symm
  · rename_i s e heq
    exact Or.inr ⟨s, e, heq, (Except.ok.inj hp).symm⟩

theorem detFold_keyIn_mono (sg eg : Re) (files : List String) :
    ∀ m D s e, keyIn m s e = true →
      files.foldlM (procEpisodeFile sg eg) m = .ok D → keyIn D s e = true := by
  induction files with
  | nil =>
    intro m D s e hk h
    simp only [List.foldlM_nil] at h
    cases Except.ok.inj h
    exact hk
  | cons f fs ih =>
    intro m D s e hk h
    rw [List.foldlM_cons] at h
    cases hp : procEpisodeFile sg eg m f with
    | error err =>
      rw [hp] at h
      exact absurd h (by simp [Bind.bind, Except.bind])
    | ok m1 =>
      rw [hp] at h
      simp only [Bind.bind, Except.bind] at h
      rcases procEpisodeFile_cases sg eg m m1 f hp with rfl | ⟨s2, e2, _, rfl⟩
      · exact ih _ D s e hk h
      · exact ih _ D s e (keyIn_seMapInsert_mono m s e s2 e2 hk) h

theorem detFold_keyIn_of_mem (sg eg : Re) (files : List String) :
    ∀ m D f s e, f ∈ files →
      extract_season_episode sg eg f = .ok (some (s, e)) →
      files.foldlM (procEpisodeFile sg eg) m = .ok D → keyIn D s e = true := by
  induction files with
  | nil =>
    intro m D f s e hmem
    simp at hmem
  | cons f0 fs ih =>
    intro m D f s e hmem hex h
    rw [List.foldlM_cons] at h
    cases hp : procEpisodeFile sg eg m f0 with
    | error err =>
      rw [hp] at h
      exact absurd h (by simp [Bind.bind, Except.bind])
    | ok m1 =>
      rw [hp] at h
      simp only [Bind.bind, Except.bind] at h
      rcases List.mem_cons.mp hmem with rfl | hmem2
      · have hm1 : m1 = seMapInsert m s e := by
          unfold procEpisodeFile at hp
          rw [hex] at hp
          exact (Except.ok.inj hp).symm
        subst hm1
        exact detFold_keyIn_mono sg eg fs _ D s e
          (keyIn_seMapInsert_self m s e) h
      · exact ih m1 D f s e hmem2 hex h

theorem determine_keyIn (dirs : List (List String)) (pats : List String)
    (sg eg : Re) (D : List (String × List String)) (f s e : String)
    (hD : determine_episodes dirs pats sg eg = .ok D)
    (hf : f ∈ scanCandidates dirs pats)
    (hex : extract_season_episode sg eg f = .ok (some (s, e))) :
    keyIn D s e = true :=
  detFold_keyIn_of_mem sg eg _ [] D f s e hf hex hD

theorem seMapInsert_inv (m : List (String × List String)) (s e : String)
    (hs : ∃ z : Int, s = pyStrOfInt z) (he : ∃ z : Int, e = pyStrOfInt z)
    (hm : ∀ p ∈ m, (∃ z : Int, p.1 = pyStrOfInt z) ∧ p.2.Nodup ∧
      ∀ e2 ∈ p.2, ∃ z : Int, e2 = pyStrOfInt z) :
    ∀ p ∈ seMapInsert m s e, (∃ z : Int, p.1 = pyStrOfInt z) ∧ p.2.Nodup ∧
      ∀ e2 ∈ p.2, ∃ z : Int, e2 = pyStrOfInt z := by
  intro p hp
  rcases mem_seMapInsert m s e p hp with ⟨q, hq, hfst, hsnd⟩ | rfl
  · obtain ⟨hq1, hq2, hq3⟩ := hm q hq
    refine ⟨hfst ▸ hq1, ?_, ?_⟩
    · rcases hsnd with h | ⟨hne, h⟩
      · rw [h]
        exact hq2
      · rw [h]
        refine List.nodup_append.mpr ⟨hq2, by simp, ?_⟩
        intro a ha hae
        simp at hae
        subst hae
        exact hne ha
    · intro e2 he2
      rcases hsnd with h | ⟨hne, h⟩
      · exact hq3 e2 (h ▸ he2)
      · rw [h] at he2
        rcases List.mem_append.mp he2 with h2 | h2
        · exact hq3 e2 h2
        · simp at h2
          subst h2
          exact he
  · refine ⟨hs, by simp, ?_⟩
    intro e2 he2
    simp at he2
    subst he2
    exact he

theorem detFold_inv (sg eg : Re) (files : List String) :
    ∀ m D,
      (∀ p ∈ m, (∃ z : Int, p.1 = pyStrOfInt z) ∧ p.2.Nodup ∧
        ∀ e2 ∈ p.2, ∃ z : Int, e2 = pyStrOfInt z) →
      files.foldlM (procEpisodeFile sg eg) m = .ok D →
      ∀ p ∈ D, (∃ z : Int, p.1 = pyStrOfInt z) ∧ p.2.Nodup ∧
        ∀ e2 ∈ p.2, ∃ z : Int, e2 = pyStrOfInt z := by
  induction files with
  | nil =>
    intro m D hm h
    simp only [List.foldlM_nil] at h
    cases Except.ok.inj h
    exact hm
  | cons f fs ih =>
    intro m D hm h
    rw [List.foldlM_cons] at h
    cases hp : procEpisodeFile sg eg m f with
    | error err =>
      rw [hp] at h
      exact absurd h (by simp [Bind.bind, Except.bind])
    | ok m1 =>
      rw [hp] at h
      simp only [Bind.bind, Except.bind] at h
      rcases procEpisodeFile_cases sg eg m m1 f hp with rfl | ⟨s2, e2, hex, rfl⟩
      · exact ih _ D hm h
      · exact ih _ D
          (seMapInsert_inv m s2 e2 (extract_shape sg eg f s2 e2 hex).1
            (extract_shape sg eg f s2 e2 hex).2 hm) h

/-- C10: whatever the directory tree, the glob patterns and the capture
regexes, every season key of the Season/Episode Map determine_episodes
builds maps to a duplicate-free list of episode keys, and every season
and episode key is the decimal rendering of an int — a string without
leading zeros — even when several glob patterns match the same file. -/
theorem c10_map_invariant (dirs : List (List String)) (pats : List String)
    (sg eg : Re) (D : List (String × List String))
    (h : determine_episodes dirs pats sg eg = .ok D) :
    ∀ p ∈ D, (isCanonIntStr p.1 = true ∧ ∃ z : Int, p.1 = pyStrOfInt z) ∧
      p.2.Nodup ∧
      ∀ e ∈ p.2, isCanonIntStr e = true ∧ ∃ z : Int, e = pyStrOfInt z := by
  have base := detFold_inv sg eg (scanCandidates dirs pats) [] D (by simp) h
  intro p hp
  obtain ⟨⟨z1, hz1⟩, hnd, hels⟩ := base p hp
  refine ⟨⟨by rw [hz1]; exact pyStrOfInt_canon z1, ⟨z1, hz1⟩⟩, hnd, ?_⟩
  intro e he
  obtain ⟨z2, hz2⟩ := hels e he
  exact ⟨by rw [hz2]; exact pyStrOfInt_canon z2, ⟨z2, hz2⟩⟩

/-- Witness for C10 on the concrete scan of the three spec filenames:
the produced keys are canonical and the episode list duplicate-free. -/
theorem c10_witness :
    isCanonIntStr "1" = true ∧ List.Nodup ["2"] ∧ isCanonIntStr "2" = true := by
  have h := c10_map_invariant
    [["Show.S01E02.mkv", "Show.S1E2.mkv", "Show.S001E002.mkv"]] ["*"]
    default_season_group default_episode_group [("1", ["2"])] rfl
  have h2 := h ("1", ["2"]) (by simp)
  exact ⟨h2.1.1, h2.2.1, (h2.2.2 "2" (by simp)).1⟩

/-! ## Lemmas for the reconciliation step -/

theorem lookup_map_pair (keys : List String) (g : String → List String)
    (s : String) (hs : s ∈ keys) :
    (keys.map (fun k => (k, g k))).lookup s = some (g s) := by
  induction keys with
  | nil => simp at hs
  | cons k ks ih =>
    simp only [List.map_cons, List.lookup]
    cases hbeq : s == k with
    | true =>
      rw [eq_of_beq hbeq]
    | false =>
      apply ih
      rcases List.mem_cons.mp hs with rfl | h
      · rw [beq_self_eq_true] at hbeq
        exact absurd hbeq (by simp)
      · exact h

theorem lookup_map_pair_none (keys : List String) (g : String → List String)
    (s : String) (hs : s ∉ keys) :
    (keys.map (fun k => (k, g k))).lookup s = none := by
  induction keys with
  | nil => rfl
  | cons k ks ih =>
    simp only [List.map_cons, List.lookup]
    cases hbeq : s == k with
    | true =>
      exact absurd (eq_of_beq hbeq) (fun hc => hs (by simp [hc]))
    | false =>
      exact ih (fun hc => hs (by simp [hc]))

theorem keyIn_buildSeasonData (keys : List String)
    (remote : List (String × List String)) (s e : String) (hs : s ∈ keys) :
    keyIn (buildSeasonData keys remote) s e = keyIn remote s e := by
  unfold keyIn buildSeasonData
  rw [lookup_map_pair keys _ s hs]
  cases hl : remote.lookup s with
  | none => simp
  | some es => simp

theorem keyIn_buildSeasonData_false (keys : List String)
    (remote : List (String × List String)) (s e : String) (hs : s ∉ keys) :
    keyIn (buildSeasonData keys remote) s e = false := by
  unfold keyIn buildSeasonData
  rw [lookup_map_pair_none keys _ s hs]

theorem lookup_some_mem_keys {α : Type} (m : List (String × α)) (s : String)
    (v : α) (h : m.lookup s = some v) : s ∈ m.map Prod.fst := by
  induction m with
  | nil => simp [List.lookup] at h
  | cons p rest ih =>
    obtain ⟨k, b⟩ := p
    rw [List.lookup] at h
    cases hbeq : s == k with
    | true =>
      simp [eq_of_beq hbeq]
    | false =>
      rw [hbeq] at h
      simp only [List.map_cons, List.mem_cons]
      exact Or.inr (ih h)

theorem keyIn_mem_keys (m : List (String × List String)) (s e : String)
    (h : keyIn m s e = true) : s ∈ m.map Prod.fst := by
  rw [keyIn_iff] at h
  obtain ⟨es, hl, _⟩ := h
  exact lookup_some_mem_keys m s es hl

theorem mem_insertSorted {α : Type} (le : α → α → Bool) (x a : α)
    (l : List α) : a ∈ insertSorted le x l ↔ a = x ∨ a ∈ l := by
  induction l with
  | nil => simp [insertSorted]
  | cons b rest ih =>
    unfold insertSorted
    split
    · simp
    · simp only [List.mem_cons, ih]
      tauto

theorem mem_insSortBy {α : Type} (le : α → α → Bool) (l : List α) (a : α) :
    a ∈ insSortBy le l ↔ a ∈ l := by
  induction l with
  | nil => simp [insSortBy]
  | cons b rest ih =>
    show a ∈ insertSorted le b (insSortBy le rest) ↔ _
    rw [mem_insertSorted, ih]
    simp

theorem mem_sortSeasonKeys (ks : List String) (a : String) :
    a ∈ sortSeasonKeys ks ↔ a ∈ ks := by
  unfold sortSeasonKeys
  split <;> exact mem_insSortBy _ ks a

theorem scanPair_to_scan (dirs : List (String × List String))
    (pats : List String) (d f : String)
    (h : (d, f) ∈ scanPairCandidates dirs pats) :
    f ∈ scanCandidates (dirs.map Prod.snd) pats := by
  unfold scanPairCandidates at h
  unfold scanCandidates
  simp only [List.mem_flatMap, List.mem_map, List.mem_filter] at h ⊢
  obtain ⟨dd, hdd, rest⟩ := h
  obtain ⟨pat, hpat, x, hx, heq⟩ := rest
  refine ⟨dd.2, ⟨dd, hdd, rfl⟩, pat, hpat, ?_⟩
  have hxf : x = f := congrArg Prod.snd heq
  subst hxf
  exact hx

theorem reconcileStep_ok (sg eg : Re) (sd : List (String × List String))
    (acc : List (String × String × String × String)) (df : String × String)
    (acc2 : List (String × String × String × String))
    (h : reconcileStep sg eg sd acc df = .ok acc2) :
    ∀ x, x ∈ acc2 ↔ x ∈ acc ∨
      (strEndsWith ".nfo" df.2 = false ∧
       ∃ s e, extract_season_episode sg eg df.2 = .ok (some (s, e)) ∧
         keyIn sd s e = true ∧ x = (df.1, df.2, s, e)) := by
  unfold reconcileStep at h
  split at h
  · rename_i hnfo
    cases Except.ok.inj h
    intro x
    simp [hnfo]
  · rename_i hnfo
    have hnfo2 : strEndsWith ".nfo" df.2 = false := by
      cases hb : strEndsWith ".nfo" df.2
      · rfl
      · exact absurd hb hnfo
    split at h
    · exact absurd h (by simp)
    · rename_i hex
      cases Except.ok.inj h
      intro x
      constructor
      · exact Or.inl
      · rintro (hx | ⟨_, s, e, hex2, _⟩)
        · exact hx
        · rw [hex] at hex2
          exact absurd hex2 (by simp)
    · rename_i s e hex
      cases Except.ok.inj h
      intro x
      by_cases hk : keyIn sd s e = true
      · rw [if_pos hk, List.mem_append]
        constructor
        · rintro (hx | hx)
          · exact Or.inl hx
          · simp only [List.mem_singleton] at hx
            exact Or.inr ⟨hnfo2, s, e, hex, hk, hx⟩
        · rintro (hx | ⟨_, s2, e2, hex2, hk2, hxeq⟩)
          · exact Or.inl hx
          · rw [hex] at hex2
            simp only [Except.ok.injEq, Option.some.injEq,
              Prod.mk.injEq] at hex2
            obtain ⟨hs2, he2⟩ := hex2
            subst hs2
            subst he2
            right
            simp [hxeq]
      · rw [if_neg hk, List.append_nil]
        constructor
        · exact Or.inl
        · rintro (hx | ⟨_, s2, e2, hex2, hk2, hxeq⟩)
          · exact hx
          · rw [hex] at hex2
            simp only [Except.ok.injEq, Option.some.injEq,
              Prod.mk.injEq] at hex2
            obtain ⟨hs2, he2⟩ := hex2
            subst hs2
            subst he2
            exact absurd hk2 hk

theorem reconcileFold_mem (sg eg : Re) (sd : List (String × List String))
    (cands : List (String × String)) :
    ∀ acc L, cands.foldlM (reconcileStep sg eg sd) acc = .ok L →
    ∀ x, x ∈ L ↔ x ∈ acc ∨
      ∃ df ∈ cands, strEndsWith ".nfo" df.2 = false ∧
        ∃ s e, extract_season_episode sg eg df.2 = .ok (some (s, e)) ∧
          keyIn sd s e = true ∧ x = (df.1, df.2, s, e) := by
  induction cands with
  | nil =>
    intro acc L h x
    simp only [List.foldlM_nil] at h
    cases Except.ok.inj h
    simp
  | cons df rest ih =>
    intro acc L h x
    rw [List.foldlM_cons] at h
    cases hstep : reconcileStep sg eg sd acc df with
    | error err =>
      rw [hstep] at h
      exact absurd h (by simp [Bind.bind, Except.bind])
    | ok acc1 =>
      rw [hstep] at h
      simp only [Bind.bind, Except.bind] at h
      have hmem := reconcileStep_ok sg eg sd acc df acc1 hstep
      rw [ih acc1 L h x, hmem x]
      constructor
      · rintro ((hx | hdf) | ⟨df2, hdf2, hrest⟩)
        · exact Or.inl hx
        · exact Or.inr ⟨df, by simp, hdf⟩
        · exact Or.inr ⟨df2, by simp [hdf2], hrest⟩
      · rintro (hx | ⟨df2, hdf2, hcond⟩)
        · exact Or.inl (Or.inl hx)
        · rcases List.mem_cons.mp hdf2 with rfl | h2
          · exact Or.inl (Or.inr hcond)
          · exact Or.inr ⟨df2, h2, hcond⟩

/-- C2 counterexample: an on-disk file that itself carries the .nfo
suffix ("Show.S01E01.nfo" matches the default glob) puts its key pair
into the Season/Episode Map, and the same pair is present remotely,
yet the reconciliation loop produces no pairing for it: the loop skips
.nfo files, so presence of the key in both maps is not sufficient. -/
theorem c2_counterexample :
    determine_episodes [["Show.S01E01.nfo"]] ["*S??E??*.*"]
      default_season_group default_episode_group = .ok [("1", ["1"])] ∧
    keyIn [("1", ["1"])] "1" "1" = true ∧
    reconcile_pairs [("/t/Show", ["Show.S01E01.nfo"])] ["*S??E??*.*"]
      default_season_group default_episode_group
      (buildSeasonData (sortSeasonKeys ["1"]) [("1", ["1"])]) = .ok [] :=
  ⟨rfl, rfl, rfl⟩

/-- C2 amended: the reconciliation loop pairs a scanned on-disk file
that does not itself carry the .nfo suffix with a remote episode
record exactly when the file's normalized key pair is present in both
the on-disk map D and the remote map R; keys present only remotely
produce no output and on-disk files whose keys are absent remotely are
left unmatched.  On the spec's instance — remote seasons 1 (episodes
1,2) and 2 (episode 1), disk seasons 1 and 3 (episode 1 each) —
exactly the single pairing for season 1, episode 1 is produced. -/
theorem c2_reconciliation :
    (∀ (dirs : List (String × List String)) (pats : List String) (sg eg : Re)
       (remote D : List (String × List String))
       (L : List (String × String × String × String)),
      determine_episodes (dirs.map Prod.snd) pats sg eg = .ok D →
      reconcile_pairs dirs pats sg eg
        (buildSeasonData (sortSeasonKeys (D.map Prod.fst)) remote) = .ok L →
      ∀ d f s e, ((d, f, s, e) ∈ L ↔
        ((d, f) ∈ scanPairCandidates dirs pats ∧
         strEndsWith ".nfo" f = false ∧
         extract_season_episode sg eg f = .ok (some (s, e)) ∧
         keyIn D s e = true ∧ keyIn remote s e = true))) ∧
    determine_episodes [["A.S01E01.mkv", "B.S03E01.mkv"]] ["*S??E??*.*"]
      default_season_group default_episode_group
      = .ok [("1", ["1"]), ("3", ["1"])] ∧
    reconcile_pairs [("/t", ["A.S01E01.mkv", "B.S03E01.mkv"])] ["*S??E??*.*"]
      default_season_group default_episode_group
      (buildSeasonData
        (sortSeasonKeys ((([("1", ["1"]), ("3", ["1"])] :
          List (String × List String))).map Prod.fst))
        [("1", ["1", "2"]), ("2", ["1"])])
      = .ok [("/t", "A.S01E01.mkv", "1", "1")] := by
  refine ⟨?_, rfl, rfl⟩
  intro dirs pats sg eg remote D L hD hrec d f s e
  have hm := reconcileFold_mem sg eg
    (buildSeasonData (sortSeasonKeys (D.map Prod.fst)) remote)
    (scanPairCandidates dirs pats) [] L hrec (d, f, s, e)
  rw [hm]
  constructor
  · rintro (hx | ⟨⟨d0, f0⟩, hdf, hnfo, s2, e2, hex, hk, hxeq⟩)
    · simp at hx
    · simp only [Prod.mk.injEq] at hxeq
      obtain ⟨rfl, rfl, rfl, rfl⟩ := hxeq
      have hsmem : s ∈ sortSeasonKeys (D.map Prod.fst) := by
        by_contra hc
        rw [keyIn_buildSeasonData_false _ _ _ _ hc] at hk
        exact absurd hk (by simp)
      refine ⟨hdf, hnfo, hex, ?_, ?_⟩
      · exact determine_keyIn (dirs.map Prod.snd) pats sg eg D f s e hD
          (scanPair_to_scan dirs pats d f hdf) hex
      · rw [keyIn_buildSeasonData _ _ _ _ hsmem] at hk
        exact hk
  · rintro ⟨hscan, hnfo, hex, hkD, hkR⟩
    right
    have hsmem : s ∈ sortSeasonKeys (D.map Prod.fst) :=
      (mem_sortSeasonKeys _ _).mpr (keyIn_mem_keys D s e hkD)
    refine ⟨(d, f), hscan, hnfo, s, e, hex, ?_, rfl⟩
    rw [keyIn_buildSeasonData _ _ _ _ hsmem]
    exact hkR

/-- Witness for C2 at the spec's instance: the produced pairing indeed
satisfies every side of the characterization. -/
theorem c2_witness :
    ("/t", "A.S01E01.mkv") ∈
      scanPairCandidates [("/t", ["A.S01E01.mkv", "B.S03E01.mkv"])]
        ["*S??E??*.*"] ∧
    strEndsWith ".nfo" "A.S01E01.mkv" = false ∧
    extract_season_episode default_season_group default_episode_group
      "A.S01E01.mkv" = .ok (some ("1", "1")) ∧
    keyIn [("1", ["1"]), ("3", ["1"])] "1" "1" = true ∧
    keyIn [("1", ["1", "2"]), ("2", ["1"])] "1" "1" = true :=
  (c2_reconciliation.1 [("/t", ["A.S01E01.mkv", "B.S03E01.mkv"])]
    ["*S??E??*.*"] default_season_group default_episode_group
    [("1", ["1", "2"]), ("2", ["1"])] [("1", ["1"]), ("3", ["1"])]
    [("/t", "A.S01E01.mkv", "1", "1")] rfl rfl
    "/t" "A.S01E01.mkv" "1" "1").mp (by simp)

end Kodi
